import Mathlib

/-!
Shallow embedding of the sdtm-backend mapping/transformation engine
(`src/mapper/transformer.py`, `src/mapper/transformer_utils.py`,
`src/mapper/modifications/modifications_service.py`,
`src/mapper/modifications/translate.py`,
`src/mapper/modifications/value_map_suggest_service.py`).

Cell values coming from the long-format source table are strings or null;
evaluation can additionally produce numbers, booleans and datetimes, so a
series element is modelled by `Val`.  Numeric values are modelled by `ℚ`
(the Python code works with float64; none of the verified properties
depend on rounding of binary floats), datetimes by an abstract integer
timestamp.  Library calls that interpret user-supplied strings
(`re`, `pandas.eval`, Python `eval`, float/date parsing) are modelled by
simple executable functions, marked below; no verified property depends
on their exact value at any interesting input.
-/

namespace SdtmBackend

/-! ### Python string primitives, modelled over character lists
(kernel-computable counterparts of `str.upper`, `str.lower`,
`str.strip`, `str.split`, substring search and replacement). -/

/-- Python `str.upper()` (ASCII model). -/
def pyUpper (s : String) : String := String.mk (s.data.map Char.toUpper)

/-- Python `str.lower()` (ASCII model). -/
def pyLower (s : String) : String := String.mk (s.data.map Char.toLower)

/-- Whitespace as stripped by Python `str.strip()` (ASCII model). -/
def isSpaceChar (c : Char) : Bool :=
  c = ' ' ∨ c = '\t' ∨ c = '\n' ∨ c = '\r'

/-- Python `str.strip()`: drop leading and trailing whitespace. -/
def pyStrip (s : String) : String :=
  String.mk (((s.data.dropWhile isSpaceChar).reverse.dropWhile
    isSpaceChar).reverse)

/-- Split a character list at every occurrence of `sep`. -/
def splitCharAux (sep : Char) : List Char → List Char → List (List Char)
  | [], acc => [acc.reverse]
  | c :: cs, acc =>
    if c = sep then acc.reverse :: splitCharAux sep cs []
    else splitCharAux sep cs (c :: acc)

/-- Python `str.split(sep)` for a one-character separator. -/
def pySplit (s : String) (sep : Char) : List String :=
  (splitCharAux sep s.data []).map String.mk

/-- Does `pat` occur at the head of `l`? -/
def listStartsWith : List Char → List Char → Bool
  | [], _ => true
  | _ :: _, [] => false
  | p :: ps, c :: cs => p = c && listStartsWith ps cs

/-- Python `str.startswith`. -/
def pyStarts (s pat : String) : Bool := listStartsWith pat.data s.data

/-- Python `str.endswith`. -/
def pyEnds (s pat : String) : Bool :=
  listStartsWith pat.data.reverse s.data.reverse

/-- Substring search over character lists. -/
def listContainsSub (pat : List Char) : List Char → Bool
  | [] => listStartsWith pat []
  | c :: cs => listStartsWith pat (c :: cs) || listContainsSub pat cs

/-- Python `pat in s` (substring containment). -/
def pyContains (s pat : String) : Bool := listContainsSub pat.data s.data

/-- Replace every occurrence of `pat` (nonempty) in `l` by `repl`. -/
def listReplace (pat repl : List Char) : List Char → List Char
  | [] => []
  | c :: cs =>
    if listStartsWith pat (c :: cs) ∧ pat ≠ [] then
      repl ++ listReplace pat repl (cs.drop (pat.length - 1))
    else c :: listReplace pat repl cs
termination_by l => l.length
decreasing_by
  · simp only [List.length_cons, List.length_drop]
    omega
  · simp

/-- Python `str.replace(pat, repl)` (all occurrences). -/
def pyReplace (s pat repl : String) : String :=
  String.mk (listReplace pat.data repl.data s.data)

/-- Model of `re.search(pat, s)` as used through
`Series.str.contains(..., regex=True)`: faithful for patterns without
regex metacharacters (plain substring search); the verified properties
never depend on metacharacter semantics. -/
def reSearch (pat s : String) : Bool := pyContains s pat

/-- Model of `re.sub(pat, repl, s)` (via `Series.str.replace(...,
regex=True)`): faithful for literal patterns. -/
def reSub (pat repl s : String) : String := pyReplace s pat repl

/-- A cell of an evaluated series: Python `None`/`NaN`, a string, a number,
a boolean, or a datetime (abstract timestamp). -/
inductive Val where
  | null : Val
  | str (s : String) : Val
  | num (q : ℚ) : Val
  | boolean (b : Bool) : Val
  | dt (t : Int) : Val
  deriving DecidableEq, Repr

/-- Python `str(v)` on a scalar, as used when a value is rendered to text
(`str(val)` in the transformer, `astype(str)` on single values).  `None`
renders as `"None"`, booleans as `True`/`False`. -/
def pyStr : Val → String
  | Val.null => "None"
  | Val.str s => s
  | Val.num q => if q.den = 1 then toString q.num else toString q
  | Val.boolean b => if b then "True" else "False"
  | Val.dt t => toString t

/-- Pandas `isna` on a scalar: only true null is missing. -/
def Val.isNa : Val → Bool
  | Val.null => true
  | _ => false

/-- A source cell as stored in the long-format table: string or null. -/
abbrev Cell := Option String

/-- View of a source cell as a series value. -/
def cellVal : Cell → Val
  | none => Val.null
  | some s => Val.str s

/-- A typed table: named columns of cells plus the row count (the length of
the pandas index).  Columns are looked up by first match. -/
structure Table where
  cols : List (String × List Cell)
  nrows : Nat
  deriving Repr

def Table.colNames (t : Table) : List String := t.cols.map (·.1)

def Table.getCol (t : Table) (name : String) : Option (List Cell) :=
  (t.cols.find? (fun c => c.1 = name)).map (·.2)

/-- Keep the entries of `xs` at positions where `mask` is true
(pandas `df[mask]` / `series.loc[mask]` on aligned indexes). -/
def maskFilter {α : Type} : List α → List Bool → List α
  | [], _ => []
  | _ :: _, [] => []
  | x :: xs, b :: bs => if b then x :: maskFilter xs bs else maskFilter xs bs

/-- Pandas `df[mask]`: the row subset selected by a boolean mask. -/
def Table.subset (t : Table) (mask : List Bool) : Table :=
  { cols := t.cols.map (fun c => (c.1, maskFilter c.2 mask)),
    nrows := mask.count true }

/-- A where-tree dict: `type`, `logic`, `children`, `field`, `op`,
`value`, all as optional as in the JSON. -/
inductive WhereDict where
  | mk (type? logic? : Option String) (children : List WhereDict)
       (field? op? : Option String) (value : Val)
  deriving Repr

/-- The `where` argument as received by `eval_where`: Python `None` (or
any non-dict), the empty dict, or a nonempty dict. -/
inductive WhereArg where
  | null : WhereArg
  | emptyDict : WhereArg
  | node (d : WhereDict) : WhereArg
  deriving Repr

/-! ### `TransformerUtils.merge_assigns_no_override` -/

/-- A fallback spec: only `mode` and `value` are read by `apply_fallback`
(no recursive fallback field — one level only, as in the source). -/
structure Fb where
  mode : Option String
  value : Val
  deriving DecidableEq, Repr

/-- One UI modification item (an entry of `a["mods"]`) as consumed by
`ui_mods_to_server_ops`: its `type` and the union of the `params` fields
the translator reads; each field holds the result of the corresponding
`params.get(...)` (with the dict default mirrored where the translator
supplies one). -/
structure UiMod where
  enabled : Option Bool := none
  type : Option String := none
  find : Option String := none
  regex : Bool := false
  case_sensitive : Bool := false
  replaceVal : String := ""
  side : Option String := none
  length : Option Int := none
  char : Option String := none
  mode : Option String := none
  trim : Bool := false
  vmap : List (String × Val) := []
  default : Option Val := none
  start : Int := 0
  thousands_sep : Option String := some ","
  decimal_sep : Option String := some "."
  coerce : Option Bool := none
  input_format : Option String := none
  rule : Option String := none
  roundD : Option Int := none
  fmt : String := "\x7b:.1f\x7d"
  na : Option Val := none
  whereArg : WhereArg := WhereArg.null
  deriving Repr

/-- An assignment spec as read by the transformer: target variable name,
mode, value, optional fallback. -/
structure Assign where
  toName : Option String
  mode : Option String
  value : Val
  fallback : Option Fb
  mods : List UiMod := []
  deriving Repr

/-- Python expression `a.get("to") or ""`, uppercased — the merge key
(the `to` field is named `toName` here since `to` is reserved in Lean). -/
def assignKey (a : Assign) : String := pyUpper ((a.toName).getD "")

/-- Faithful embedding of `TransformerUtils.merge_assigns_no_override`:
walk `common` then `emitter`, keeping an assignment only when its
(uppercased, nonempty) target name has not been seen. -/
def mergeStep (st : List String × List Assign) (a : Assign) :
    List String × List Assign :=
  let k := assignKey a
  if k ≠ "" ∧ k ∉ st.1 then (k :: st.1, st.2 ++ [a]) else st

def merge_assigns_no_override (common emitter : List Assign) : List Assign :=
  ((common ++ emitter).foldl mergeStep ([], [])).2

/-! ### `ValueMapSuggestService._build_synonym_index` -/

/-- A controlled term of the selected codelist version
(`SDTMCodelistTerm`): submission value, semicolon-delimited synonyms,
NCI term code — all nullable database columns. -/
structure CTerm where
  submission_value : Option String
  synonyms : Option String
  nci_term_code : Option String
  deriving DecidableEq, Repr

/-- One value of the synonym index: the tuple
`(submission_value, match_type, term_code, raw_synonym)` built by
`_build_synonym_index`. -/
structure IdxEntry where
  submission : Option String
  matchType : String
  termCode : Option String
  rawSynonym : Option String
  deriving DecidableEq, Repr

/-- `ValueMapSuggestService._normalize` (the `None` case is handled by the
callers through `or ""`). -/
def vmNormalize (s : String) (trim case_sensitive : Bool) : String :=
  let s2 := if trim then pyStrip s else s
  if case_sensitive then s2 else pyLower s2

/-- Normalized submission value of a term
(`self._normalize(t.submission_value or "", ...)`). -/
def normSub (trim cs : Bool) (t : CTerm) : String :=
  vmNormalize ((t.submission_value).getD "") trim cs

/-- The stripped, nonempty synonyms of a term
(`[s.strip() for s in (t.synonyms or "").split(";") if s.strip()]`). -/
def synsOf (t : CTerm) : List String :=
  ((pySplit ((t.synonyms).getD "") ';').map pyStrip).filter (fun s => s ≠ "")

/-- The submission-value index entry of a term. -/
def subEntry (t : CTerm) : IdxEntry :=
  ⟨t.submission_value, "submission", t.nci_term_code, none⟩

/-- The index entry of one raw synonym of a term. -/
def synEntry (t : CTerm) (syn : String) : IdxEntry :=
  ⟨t.submission_value, "synonym", t.nci_term_code, some syn⟩

/-- Insert `(k, e)` only when `k` is nonempty and not yet present — the
shape of both `idx.setdefault(norm_sub, ...)` (guarded by
`if norm_sub:`) and `if norm_syn and norm_syn not in idx: idx[...] = `. -/
def insKV (idx : List (String × IdxEntry)) (k : String) (e : IdxEntry) :
    List (String × IdxEntry) :=
  if k ≠ "" ∧ (idx.find? (fun p => p.1 = k)).isNone then idx ++ [(k, e)]
  else idx

/-- Index the entries of one term: its submission value first, then each
of its synonyms, in order. -/
def idxInsertTerm (trim cs : Bool) (idx : List (String × IdxEntry))
    (t : CTerm) : List (String × IdxEntry) :=
  (synsOf t).foldl
    (fun idx syn => insKV idx (vmNormalize syn trim cs) (synEntry t syn))
    (insKV idx (normSub trim cs t) (subEntry t))

/-- Faithful embedding of `_build_synonym_index` over the terms of the
selected codelist version. -/
def build_synonym_index (terms : List CTerm) (trim cs : Bool) :
    List (String × IdxEntry) :=
  terms.foldl (idxInsertTerm trim cs) []

/-- Python `idx.get(norm)`: dictionary lookup (keys are unique by
construction, so first match is the dictionary entry). -/
def idxLookup (idx : List (String × IdxEntry)) (k : String) :
    Option IdxEntry :=
  (idx.find? (fun p => p.1 = k)).map (·.2)

/-- All candidate entries of one term, submission value first, then the
synonyms, keyed by normalized text. -/
def termEntryList (trim cs : Bool) (t : CTerm) : List (String × IdxEntry) :=
  (normSub trim cs t, subEntry t) ::
    (synsOf t).map (fun syn => (vmNormalize syn trim cs, synEntry t syn))

/-- The build-order stream of candidate entries across all terms,
restricted to nonempty keys. -/
def indexEntryStream (terms : List CTerm) (trim cs : Bool) :
    List (String × IdxEntry) :=
  (terms.flatMap (termEntryList trim cs)).filter (fun p => p.1 ≠ "")

/-! ### `TransformerUtils.eval_where` -/

/-- Python expression `x or d` for a possibly-missing string `x`:
both `None` and `""` fall back to the default. -/
def orDefault (s : Option String) (d : String) : String :=
  match s with
  | none => d
  | some v => if v = "" then d else v

/-- Python `x or y` on two possibly-missing strings (an empty string is
falsy and falls through). -/
def orFalsy (a b : Option String) : Option String :=
  match a with
  | none => b
  | some v => if v = "" then b else some v

/-- Python `str(x)` for a nullable string. -/
def optStr (s : Option String) : String :=
  match s with
  | none => "None"
  | some v => v

/-- Pandas `astype(str)` on one object cell: `None`/`NaN` renders as its
Python string form (the verified properties never inspect that form). -/
def astr (c : Cell) : String :=
  match c with
  | none => "None"
  | some s => s

/-- First-match association-list lookup, modelling Python `dict.get`. -/
def alookup (m : List (String × String)) (k : String) : Option String :=
  (m.find? (fun p => p.1 = k)).map (·.2)

/-- The dtype canonicalization table of `TransformerUtils._canon_base`. -/
def canonTable : List (String × String) :=
  [("int64", "int"), ("int32", "int"), ("integer", "int"), ("int", "int"),
   ("float64", "float"), ("float32", "float"), ("float", "float"),
   ("double", "float"), ("decimal", "float"),
   ("bool", "bool"), ("boolean", "bool"),
   ("datetime64[ns]", "datetime"), ("datetime", "datetime"),
   ("timestamp", "datetime"), ("date", "datetime"),
   ("object", "string"), ("text", "string"), ("string", "string")]

/-- `TransformerUtils._canon_base`: lowercase, strip, drop a trailing
`?`, then canonicalize through the table (an unknown nonempty dtype maps
to itself, a missing/empty one to `string`). -/
def canonBase (dt : Option String) : String :=
  let d0 := pyStrip (pyLower (dt.getD ""))
  let d := if pyEnds d0 "?" then String.mk d0.data.dropLast else d0
  match alookup canonTable d with
  | some b => b
  | none => if d = "" then "string" else d

/-- Digit-string value, or `none` when a non-digit occurs. -/
def digitsVal (l : List Char) : Option Nat :=
  if l.all Char.isDigit then
    some (l.foldl (fun acc c => acc * 10 + (c.toNat - 48)) 0)
  else none

/-- Model of Python `float(s)` on a string: optional sign, integer part,
optional fractional part (no exponent notation — the verified
properties never depend on it). -/
def parseFloat (s : String) : Option ℚ :=
  let t := (pyStrip s).data
  let signed : ℚ × List Char :=
    match t with
    | '-' :: r => (-1, r)
    | '+' :: r => (1, r)
    | r => (1, r)
  match splitCharAux '.' signed.2 [] with
  | [ip] => (digitsVal ip).map (fun n => signed.1 * n)
  | [ip, fp] =>
    if ip = [] ∧ fp = [] then none
    else
      match digitsVal ip, digitsVal fp with
      | some n, some f =>
        some (signed.1 * ((n : ℚ) + (f : ℚ) / (10 : ℚ) ^ fp.length))
      | _, _ => none
  | _ => none

/-- Model of generic date parsing (`pd.to_datetime` on one string):
accepts `YYYY-MM-DD`-shaped digit strings, encoded as an ordered
integer key; anything else is unparsable. -/
def parseDate (s : String) : Option Int :=
  match (pySplit (pyStrip s) '-').map (fun p => digitsVal p.data) with
  | [some y, some m, some d] => some ((y : Int) * 10000 + m * 100 + d)
  | _ => none

/-- The fixed boolean token mapping of `_coerce_value`/`_coerce_series`. -/
def boolToken (s : String) : Val :=
  if s = "true" ∨ s = "1" ∨ s = "yes" ∨ s = "y" then Val.boolean true
  else if s = "false" ∨ s = "0" ∨ s = "no" ∨ s = "n" then Val.boolean false
  else Val.null

/-- `TransformerUtils._coerce_value`: coerce one comparison literal to the
column's declared base type; unparsable values become null. -/
def coerceValue (val : Val) (base : String) : Val :=
  if base = "int" ∨ base = "float" then
    match val with
    | Val.num q => Val.num q
    | Val.boolean b => Val.num (if b then 1 else 0)
    | Val.str s =>
      match parseFloat s with
      | some q => Val.num q
      | none => Val.null
    | _ => Val.null
  else if base = "datetime" then
    match val with
    | Val.dt t => Val.dt t
    | Val.str s =>
      match parseDate s with
      | some t => Val.dt t
      | none => Val.null
    | _ => Val.null
  else if base = "bool" then
    boolToken (pyLower (pyStrip (pyStr val)))
  else
    match val with
    | Val.null => Val.null
    | v => Val.str (pyStr v)

/-- `TransformerUtils._coerce_series`: coerce a raw column to the declared
base type, elementwise, unparsable cells becoming null (`errors=coerce`);
the default branch is `astype("string")`, which keeps nulls. -/
def coerceSeries (cells : List Cell) (base : String) : List Val :=
  if base = "int" ∨ base = "float" then
    cells.map (fun c =>
      match c with
      | none => Val.null
      | some s =>
        match parseFloat s with
        | some q => Val.num q
        | none => Val.null)
  else if base = "datetime" then
    cells.map (fun c =>
      match c with
      | none => Val.null
      | some s =>
        match parseDate s with
        | some t => Val.dt t
        | none => Val.null)
  else if base = "bool" then
    cells.map (fun c =>
      match c with
      | none => Val.null
      | some s => boolToken (pyLower (pyStrip s)))
  else cells.map cellVal

/-- `TransformerUtils._resolve_col`: exact column-name match first, then
the case-insensitive map `{c.lower(): c}` (built by dict comprehension,
so on a lowercase collision the later column wins). -/
def resolveCol (tbl : Table) (name? : Option String) : Option String :=
  match name? with
  | none => none
  | some name =>
    if name = "" then none
    else if name ∈ tbl.colNames then some name
    else (tbl.colNames.reverse).find? (fun c => pyLower c = pyLower name)

/-- The effective base type used by the typed operators: from a nonempty
`col_types` dict, the first truthy of the exact, lowercased-column and
lowercased-field lookups, canonicalized; `base or "string"` otherwise. -/
def effBase (colTypes : List (String × String)) (col : String)
    (field? : Option String) : String :=
  if colTypes.isEmpty then "string"
  else
    canonBase (orFalsy (alookup colTypes col)
      (orFalsy (alookup colTypes (pyLower col))
        (alookup colTypes (pyLower (optStr field?)))))

/-- Equality after coercion (`s == v`): null cells never match; pandas
NA results in a mask are modelled as false. -/
def valEqB : Val → Val → Bool
  | Val.num a, Val.num b => a = b
  | Val.dt a, Val.dt b => a = b
  | Val.boolean a, Val.boolean b => a = b
  | _, _ => false

/-- Strict greater-than after coercion; null never matches. -/
def valGtB : Val → Val → Bool
  | Val.num a, Val.num b => a > b
  | Val.dt a, Val.dt b => a > b
  | _, _ => false

/-- Strict less-than after coercion; null never matches. -/
def valLtB : Val → Val → Bool
  | Val.num a, Val.num b => a < b
  | Val.dt a, Val.dt b => a < b
  | _, _ => false

/-- Greater-or-equal after coercion; null never matches. -/
def valGeB : Val → Val → Bool
  | Val.num a, Val.num b => a ≥ b
  | Val.dt a, Val.dt b => a ≥ b
  | _, _ => false

/-- Less-or-equal after coercion; null never matches. -/
def valLeB : Val → Val → Bool
  | Val.num a, Val.num b => a ≤ b
  | Val.dt a, Val.dt b => a ≤ b
  | _, _ => false

/-- The rule branch of `eval_where`, with the operator already lowered
and defaulted (`(where.get("op") or "==").lower()`).  Mirrors the
source's if-chain: null checks, string operators, equality, `in`,
relational operators for numeric/datetime bases, and the final fail-open
match-all return. -/
def evalRuleOp (tbl : Table) (colTypes : List (String × String))
    (field? : Option String) (op : String) (val : Val) : List Bool :=
  match resolveCol tbl field? with
  | none => List.replicate tbl.nrows false
  | some col =>
    let sRaw := (tbl.getCol col).getD []
    if op = "not_null" then
      sRaw.map (fun c => c.isSome && astr c ≠ "")
    else if op = "is_null" then
      sRaw.map (fun c => !c.isSome || astr c = "")
    else if op = "contains" then
      sRaw.map (fun c => reSearch (pyStr val) (astr c))
    else if op = "starts_with" ∨ op = "startswith" then
      sRaw.map (fun c => pyStarts (astr c) (pyStr val))
    else if op = "ends_with" ∨ op = "endswith" then
      sRaw.map (fun c => pyEnds (astr c) (pyStr val))
    else if op = "regex" then
      sRaw.map (fun c => reSearch (pyStr val) (astr c))
    else
      let base := effBase colTypes col field?
      let s := coerceSeries sRaw base
      if op = "==" ∨ op = "eq" ∨ op = "!=" ∨ op = "ne" then
        let cmp : List Bool :=
          if base = "int" ∨ base = "float" ∨ base = "datetime" ∨
              base = "bool" then
            s.map (fun x => valEqB x (coerceValue val base))
          else
            s.map (fun x =>
              match x with
              | Val.str t => pyStrip t = pyStrip (pyStr val)
              | _ => false)
        if op = "!=" ∨ op = "ne" then cmp.map (fun b => !b) else cmp
      else if op = "in" then
        let items := (pySplit (pyStr val) ',').map pyStrip
        if base = "int" ∨ base = "float" ∨ base = "datetime" ∨
            base = "bool" then
          let vals := items.map (fun x => coerceValue (Val.str x) base)
          s.map (fun x =>
            vals.any (fun v => v ≠ Val.null && valEqB x v))
        else
          s.map (fun x =>
            match x with
            | Val.str t => items.contains t
            | _ => false)
      else if base = "int" ∨ base = "float" ∨ base = "datetime" then
        let v := coerceValue val base
        if v = Val.null then List.replicate s.length false
        else if op = ">" then s.map (fun x => valGtB x v)
        else if op = "<" then s.map (fun x => valLtB x v)
        else if op = ">=" ∨ op = "ge" then s.map (fun x => valGeB x v)
        else if op = "<=" ∨ op = "le" then s.map (fun x => valLeB x v)
        else List.replicate tbl.nrows true
      else List.replicate tbl.nrows true

/-- Combine the child masks of a group node: the first mask, then
fold with OR when the (defaulted, uppercased) logic is `OR`, AND
otherwise; an empty group matches all rows. -/
def combineMasks (nrows : Nat) (logic : String) :
    List (List Bool) → List Bool
  | [] => List.replicate nrows true
  | m :: ms =>
    ms.foldl
      (fun out m2 =>
        if logic = "OR" then List.zipWith (fun a b => a || b) out m2
        else List.zipWith (fun a b => a && b) out m2) m

mutual

/-- Recursive evaluation of one where-tree node (`eval_where` on a
nonempty dict): `type == "group"` recurses over the children, any other
type is treated as a rule. -/
def evalNode (tbl : Table) (colTypes : List (String × String)) :
    WhereDict → List Bool
  | WhereDict.mk type? logic? children field? op? value =>
    if type? = some "group" then
      combineMasks tbl.nrows (pyUpper (orDefault logic? "AND"))
        (evalNodeList tbl colTypes children)
    else
      evalRuleOp tbl colTypes field? (pyLower (orDefault op? "==")) value

/-- Child masks of a group node, in order. -/
def evalNodeList (tbl : Table) (colTypes : List (String × String)) :
    List WhereDict → List (List Bool)
  | [] => []
  | c :: cs => evalNode tbl colTypes c :: evalNodeList tbl colTypes cs

end

/-- `TransformerUtils.eval_where`: absent / empty / non-dict `where`
matches all rows, otherwise the tree is evaluated. -/
def eval_where (tbl : Table) (w : WhereArg)
    (colTypes : List (String × String)) : List Bool :=
  match w with
  | WhereArg.null => List.replicate tbl.nrows true
  | WhereArg.emptyDict => List.replicate tbl.nrows true
  | WhereArg.node d => evalNode tbl colTypes d

/-! ### `TransformerUtils.eval_assign_series` and `apply_fallback` -/

/-- Python truthiness of a scalar value (`None`, `""`, `0`, `False` are
falsy). -/
def valFalsy : Val → Bool
  | Val.null => true
  | Val.str s => s = ""
  | Val.num q => q = 0
  | Val.boolean b => !b
  | Val.dt _ => false

/-- Start character of a `{identifier}` template token
(`[A-Za-z_]`). -/
def isIdentStart (c : Char) : Bool :=
  (c ≥ 'A' ∧ c ≤ 'Z') ∨ (c ≥ 'a' ∧ c ≤ 'z') ∨ c = '_'

/-- Continuation character of a template token (`[A-Za-z0-9_]`). -/
def isIdentChar (c : Char) : Bool := isIdentStart c || c.isDigit

/-- Read identifier-continuation characters up to a closing brace,
returning the body and the rest after the brace. -/
def takeIdentAux : List Char → Option (List Char × List Char)
  | [] => none
  | c :: cs =>
    if c = '}' then some ([], cs)
    else if isIdentChar c then
      (takeIdentAux cs).map (fun p => (c :: p.1, p.2))
    else none

/-- Try to read `identifier}` at the head of the character list,
returning the identifier and the rest after the closing brace. -/
def takeIdent : List Char → Option (String × List Char)
  | [] => none
  | c :: cs =>
    if isIdentStart c then
      (takeIdentAux cs).map (fun p => (String.mk (c :: p.1), p.2))
    else none

/-- A template piece: literal text or a column reference. -/
inductive Piece where
  | lit (txt : String) : Piece
  | colRef (name : String) : Piece
  deriving DecidableEq, Repr

/-- Left-to-right scan of the template for
`\{[A-Za-z_][A-Za-z0-9_]*\}` tokens (as `re.finditer` walks it),
accumulating literal text between matches. -/
def scanTemplate (acc : List Char) : List Char → List Piece
  | [] => if acc.isEmpty then [] else [Piece.lit (String.mk acc.reverse)]
  | '{' :: rest =>
    match hm : takeIdent rest with
    | some (ident, rest2) =>
      (if acc.isEmpty then [] else [Piece.lit (String.mk acc.reverse)]) ++
        Piece.colRef ident :: scanTemplate [] rest2
    | none => scanTemplate ('{' :: acc) rest
  | c :: rest => scanTemplate (c :: acc) rest
termination_by l => l.length
decreasing_by
  · have haux : ∀ (l b r : List Char), takeIdentAux l = some (b, r) →
        r.length ≤ l.length := by
      intro l
      induction l with
      | nil => intro b r h2; simp [takeIdentAux] at h2
      | cons x xs ih =>
        intro b r h2
        simp only [takeIdentAux] at h2
        by_cases hx : x = '}'
        · rw [if_pos hx] at h2
          simp only [Option.some.injEq, Prod.mk.injEq] at h2
          obtain ⟨h3, h4⟩ := h2
          subst h4
          simp
        · rw [if_neg hx] at h2
          by_cases hic : isIdentChar x
          · rw [if_pos hic] at h2
            cases hh : takeIdentAux xs with
            | none => rw [hh] at h2; simp at h2
            | some p =>
              rw [hh] at h2
              simp at h2
              obtain ⟨h3, h4⟩ := h2
              subst h4
              have := ih p.1 p.2 (by rw [hh])
              simp only [List.length_cons]
              omega
          · simp [hic] at h2
    have hlen : rest2.length < rest.length := by
      cases rest with
      | nil => simp [takeIdent] at hm
      | cons c cs =>
        simp only [takeIdent] at hm
        by_cases hc : isIdentStart c
        · rw [if_pos hc] at hm
          cases hh : takeIdentAux cs with
          | none => rw [hh] at hm; simp at hm
          | some p =>
            rw [hh] at hm
            simp at hm
            obtain ⟨h3, h4⟩ := hm
            subst h4
            have := haux cs p.1 p.2 (by rw [hh])
            simp only [List.length_cons]
            omega
        · rw [if_neg hc] at hm; simp at hm
    simp only [List.length_cons]
    omega
  · simp
  · simp

/-- The text one piece contributes at row `i`: literal text, or the
column's value with nulls (and a missing column's all-null series)
rendered as the empty string
(`s.astype(str).where(s.notna(), if absent)`). -/
def pieceText (tbl : Table) (i : Nat) : Piece → String
  | Piece.lit txt => txt
  | Piece.colRef name =>
    match tbl.getCol name with
    | none => ""
    | some cells =>
      match cells.getD i none with
      | none => ""
      | some v => v

/-- `TransformerUtils._eval_template`: concatenate the pieces row-wise;
with no pieces at all, an all-null series. -/
def evalTemplate (tbl : Table) (template : String) : List Val :=
  let pieces := scanTemplate [] template.data
  if pieces.isEmpty then List.replicate tbl.nrows Val.null
  else
    (List.range tbl.nrows).map (fun i =>
      Val.str (pieces.foldl (fun acc p => acc ++ pieceText tbl i p) ""))

/-- Pandas `pd.to_numeric(column, errors="ignore")`: the whole column
converts only when every non-null cell parses; otherwise it is left
unchanged. -/
def numifyCol (cells : List Cell) : List Val :=
  if cells.all (fun c =>
      match c with
      | none => true
      | some s => (parseFloat s).isSome) then
    cells.map (fun c =>
      match c with
      | none => Val.null
      | some s =>
        match parseFloat s with
        | some q => Val.num q
        | none => Val.null)
  else cells.map cellVal

/-- Modelled from pandas: `df.eval(expr, engine="python")` restricted to
a bare column identifier over the numeric-coerced frame; any other
expression is modelled as an evaluation failure (the source wraps the
call in try/except and returns an all-null series on failure).  No
verified property depends on the value of a compound expression. -/
def pandasEvalModel (tbl : Table) (expr : String) : Option (List Val) :=
  match expr.data with
  | [] => none
  | c :: cs =>
    if isIdentStart c ∧ cs.all isIdentChar then
      (tbl.getCol expr).map numifyCol
    else none

/-- `TransformerUtils.eval_assign_series`: static / column / expression
dispatch on the (defaulted, lowercased) mode; anything else yields an
all-null series.  A non-string expression value is modelled through its
Python string form. -/
def eval_assign_series (tbl : Table) (a : Assign) : List Val :=
  let mode := pyLower (orDefault a.mode "static")
  if mode = "column" then
    match a.value with
    | Val.null => List.replicate tbl.nrows Val.null
    | v =>
      let col := pyStr v
      if col = "" ∨ col ∉ tbl.colNames then
        List.replicate tbl.nrows Val.null
      else ((tbl.getCol col).getD []).map cellVal
  else if mode = "static" then
    List.replicate tbl.nrows a.value
  else if mode = "expression" then
    let expr := if valFalsy a.value then "" else pyStr a.value
    if pyContains expr "\x7b" ∧ pyContains expr "\x7d" then evalTemplate tbl expr
    else
      match pandasEvalModel tbl expr with
      | none => List.replicate tbl.nrows Val.null
      | some res => res
  else List.replicate tbl.nrows Val.null

/-- Pandas `series.isna() | (series.astype(str) == "")` on one value:
true null, or a value whose string form is empty. -/
def isNaOrEmptyStr (v : Val) : Bool := v.isNa || pyStr v = ""

/-- The substitute series computed by `apply_fallback` from the fallback
spec: named column (missing or null column name giving all-null),
recursive expression evaluation, or a static constant. -/
def fallbackSeries (tbl : Table) (fb : Fb) : List Val :=
  let fbMode := pyLower (orDefault fb.mode "static")
  if fbMode = "column" then
    match fb.value with
    | Val.null => List.replicate tbl.nrows Val.null
    | v =>
      match tbl.getCol (pyStr v) with
      | some cells => cells.map cellVal
      | none => List.replicate tbl.nrows Val.null
  else if fbMode = "expression" then
    eval_assign_series tbl ⟨none, some "expression", fb.value, none, []⟩
  else List.replicate tbl.nrows fb.value

/-- Pandas `series.mask(mask, other)`: positions where the mask holds
take the substitute series' value. -/
def maskSub (series : List Val) (mask : List Bool) (fb : List Val) :
    List Val :=
  (List.range series.length).map (fun i =>
    if mask.getD i false then fb.getD i Val.null
    else series.getD i Val.null)

/-- `TransformerUtils.apply_fallback`: fill null/empty positions with the
fallback series (shortcutting when no position is null/empty). -/
def apply_fallback (series : List Val) (tbl : Table) (fb : Fb) :
    List Val :=
  if !((series.map isNaOrEmptyStr).any id) then series
  else maskSub series (series.map isNaOrEmptyStr) (fallbackSeries tbl fb)

/-! ### `ModificationsService.apply` -/

/-- One server-side op dict as consumed by `ModificationsService.apply`:
the `op` tag plus the union of the parameter keys the service reads,
each holding the result of the corresponding `t.get(...)`. -/
structure ServerOp where
  op : Option String := none
  pattern : Option String := none
  repl : Option String := none
  flags : Option String := none
  vmap : List (String × Val) := []
  default : Option Val := none
  case_insensitive : Bool := false
  errors : Option String := none
  format : Option String := none
  utc : Bool := false
  value : Option Val := none
  lowerB : Option ℚ := none
  upperB : Option ℚ := none
  decimals : Int := 0
  width : Int := 0
  fillchar : String := "0"
  start : Int := 0
  length : Option Int := none
  rule : Option String := none
  roundD : Option Int := none
  fmt : String := "\x7b\x7d"
  na : Option Val := none
  whereArg : WhereArg := WhereArg.null
  deriving Repr

/-- Pandas `astype("string")` on one cell: nulls are kept as missing,
other values render through their string form. -/
def toStrD : Val → Option String
  | Val.null => none
  | v => some (pyStr v)

/-- Lift a string function through the nullable string dtype
(`.str` operations propagate missing values). -/
def strOp (f : String → String) (v : Val) : Val :=
  match toStrD v with
  | none => Val.null
  | some s => Val.str (f s)

/-- Python `str.title()` (ASCII model): uppercase a letter that follows
a non-letter, lowercase the rest. -/
def titleAux : Bool → List Char → List Char
  | _, [] => []
  | prevAlpha, c :: cs =>
    (if c.isAlpha then (if prevAlpha then c.toLower else c.toUpper)
     else c) :: titleAux c.isAlpha cs

def pyTitle (s : String) : String := String.mk (titleAux false s.data)

/-- Case-insensitive variant of the occurrence test. -/
def listStartsWithCI : List Char → List Char → Bool
  | [], _ => true
  | _ :: _, [] => false
  | p :: ps, c :: cs => p.toLower = c.toLower && listStartsWithCI ps cs

/-- Case-insensitive literal replacement (model of `re.IGNORECASE`). -/
def listReplaceCI (pat repl : List Char) : List Char → List Char
  | [] => []
  | c :: cs =>
    if listStartsWithCI pat (c :: cs) ∧ pat ≠ [] then
      repl ++ listReplaceCI pat repl (cs.drop (pat.length - 1))
    else c :: listReplaceCI pat repl cs
termination_by l => l.length
decreasing_by
  · simp only [List.length_cons, List.length_drop]
    omega
  · simp

/-- Model of `Series.str.replace(pat, repl, regex=True, flags)`:
literal-pattern replacement, optionally case-insensitive. -/
def reSubF (ci : Bool) (pat repl s : String) : String :=
  if ci then String.mk (listReplaceCI pat.data repl.data s.data)
  else pyReplace s pat repl

/-- `pd.to_numeric` on one value (`errors="coerce"` shape): numbers stay,
strings parse, booleans map to 0/1, everything else is null. -/
def toNumElem : Val → Option ℚ
  | Val.num q => some q
  | Val.str s => parseFloat s
  | Val.boolean b => some (if b then 1 else 0)
  | _ => none

/-- `pd.to_numeric(slice, errors=...)`: `coerce` nulls the unparsable
cells; `ignore` converts only when the whole slice parses, else leaves
the slice unchanged. -/
def toNumericList (errs : String) (s2 : List Val) : List Val :=
  if errs = "ignore" then
    if s2.all (fun v => v.isNa || (toNumElem v).isSome) then
      s2.map (fun v =>
        match toNumElem v with
        | some q => Val.num q
        | none => Val.null)
    else s2
  else
    s2.map (fun v =>
      match toNumElem v with
      | some q => Val.num q
      | none => Val.null)

/-- `pd.to_datetime` on one value (`errors="coerce"`), via the modelled
date parser (an explicit format is modelled identically). -/
def toDtElem : Val → Val
  | Val.dt t => Val.dt t
  | Val.str s =>
    match parseDate s with
    | some t => Val.dt t
    | none => Val.null
  | _ => Val.null

/-- Rounding of a rational to `d` decimal places (model of float
rounding; the half-to-even tie rule of Python is not modelled and no
verified property depends on it). -/
def roundQ (q : ℚ) (d : Int) : ℚ :=
  (round (q * (10 : ℚ) ^ d) : Int) / (10 : ℚ) ^ d

/-- The `value_map` element function: string keys (lowercased when
case-insensitive, where the later duplicate key wins), falling back to
the declared default, else the original value. -/
def valueMapElem (m : List (String × Val)) (default : Option Val)
    (ci : Bool) (v : Val) : Val :=
  let key : Option String :=
    match v with
    | Val.str s => some (if ci then pyLower s else s)
    | _ => none
  let looked : Option Val :=
    key.bind (fun k =>
      if ci then
        ((m.map (fun p => (pyLower p.1, p.2))).reverse.find?
          (fun p => p.1 = k)).map (·.2)
      else (m.find? (fun p => p.1 = k)).map (·.2))
  match looked with
  | some x => x
  | none =>
    match default with
    | some d => d
    | none => v

/-- Left/right padding to a fixed width (`Series.str.pad`). -/
def pyPad (side : String) (width : Int) (fill : String) (s : String) :
    String :=
  let w := width.toNat
  if s.length ≥ w then s
  else
    let padding := List.replicate (w - s.length) (fill.data.headD '0')
    if side = "right" then String.mk (s.data ++ padding)
    else String.mk (padding ++ s.data)

/-- `Series.str.slice(start, stop)`; negative offsets are not modelled
(the translator produces non-negative ones). -/
def pySlice (start : Int) (stop? : Option Int) (s : String) : String :=
  match stop? with
  | none => String.mk (s.data.drop start.toNat)
  | some stop =>
    String.mk ((s.data.take stop.toNat).drop start.toNat)

/-- Model of the `unit_convert` rule evaluation
(`eval(expr, {"x": base})`): the identity rule `x` returns the coerced
numbers; any other expression is modelled as an all-null result.  No
verified property depends on the value of an arithmetic rule. -/
def unitRuleModel (rule : String) (base : List (Option ℚ)) :
    List (Option ℚ) :=
  if pyStrip rule = "x" then base else base.map (fun _ => none)

/-- The `unit_convert` slice function: numeric coercion, the modelled
rule, then optional rounding. -/
def unitConvertFun (rule : String) (rnd : Option Int) (s2 : List Val) :
    List Val :=
  let base := s2.map toNumElem
  let outVals := unitRuleModel rule base
  match rnd with
  | some r =>
    outVals.map (fun q? =>
      match q? with
      | some q => Val.num (roundQ q r)
      | none => Val.null)
  | none =>
    outVals.map (fun q? =>
      match q? with
      | some q => Val.num q
      | none => Val.null)

/-- Model of `fmt.format(v)` / `f"{v:{fmt}}"` / `strftime`: the brace
placeholder is replaced by the value's string form; a bare format spec
renders the value's string form.  No verified property depends on
format rendering. -/
def formatModel (fmt : String) (v : Val) : String :=
  if pyContains fmt "\x7b" ∧ pyContains fmt "\x7d" then
    pyReplace fmt "\x7b\x7d" (pyStr v)
  else pyStr v

/-- The `format` slice function: datetime slices render through the
format model, numeric-convertible slices through numeric formatting,
other slices through the generic template (or plain string cast); then
the optional null-replacement token. -/
def formatFun (fmt : String) (na : Option Val) (s2 : List Val) :
    List Val :=
  let res : List Val :=
    if s2.all (fun v => v.isNa || (match v with
        | Val.dt _ => true
        | _ => false)) ∧ s2.any (fun v => match v with
        | Val.dt _ => true
        | _ => false) then
      s2.map (fun v =>
        match v with
        | Val.null => Val.null
        | v => Val.str (formatModel fmt v))
    else if s2.all (fun v => v.isNa || (toNumElem v).isSome) then
      s2.map (fun v =>
        match v with
        | Val.null => Val.null
        | v =>
          match toNumElem v with
          | some q => Val.str (formatModel fmt (Val.num q))
          | none => Val.null)
    else if pyContains fmt "\x7b" ∧ pyContains fmt "\x7d" then
      s2.map (fun v =>
        match v with
        | Val.null => Val.null
        | v => Val.str (formatModel fmt v))
    else s2.map (strOp id)
  match na with
  | none => res
  | some naV => res.map (fun v => if v.isNa then naV else v)

/-- `_mask_for`: a mask from the op's `where` when a row-context frame
and the utils are supplied and the `where` is a truthy (nonempty) dict;
otherwise apply everywhere.  (`eval_where` is called without
`col_types` here.)  The mask is reindexed to the series with `False`
fill. -/
def maskFor (ctx : Option Table) (outLen : Nat) (t : ServerOp) :
    List Bool :=
  match ctx, t.whereArg with
  | some df, WhereArg.node d =>
    let m := eval_where df (WhereArg.node d) []
    (List.range outLen).map (fun i => m.getD i false)
  | _, _ => List.replicate outLen true

/-- Scatter the transformed slice back into the masked positions
(`series.loc[mask] = res`). -/
def scatterMasked : List Val → List Bool → List Val → List Val
  | [], _, _ => []
  | v :: vs, [], _ => v :: vs
  | v :: vs, b :: bs, rs =>
    if b then rs.headD v :: scatterMasked vs bs rs.tail
    else v :: scatterMasked vs bs rs

/-- `_apply_masked`: no-op on an all-false mask, otherwise transform the
masked slice and write it back to the masked positions only. -/
def applyMasked (series : List Val) (mask : List Bool)
    (f : List Val → List Val) : List Val :=
  if !(mask.any id) then series
  else scatterMasked series mask (f (maskFilter series mask))

/-- The slice transformation selected by the op dispatch of
`ModificationsService.apply` (each source branch is
`out = _apply_masked(out, mask, func)` for its own `func`); `none` for
an unknown op or an empty `unit_convert` rule, both of which leave the
series untouched. -/
def stepFun (t : ServerOp) : Option (List Val → List Val) :=
  let op := pyLower ((t.op).getD "")
  if op = "trim" then
    some (fun s2 => s2.map (strOp pyStrip))
  else if op = "lower" then
    some (fun s2 => s2.map (strOp pyLower))
  else if op = "upper" then
    some (fun s2 => s2.map (strOp pyUpper))
  else if op = "title" then
    some (fun s2 => s2.map (strOp pyTitle))
  else if op = "regex_replace" then
    some (fun s2 => s2.map (strOp
      (reSubF (pyContains (pyLower ((t.flags).getD "")) "i")
        ((t.pattern).getD "") ((t.repl).getD ""))))
  else if op = "value_map" then
    some (fun s2 => s2.map
      (valueMapElem t.vmap t.default t.case_insensitive))
  else if op = "to_numeric" then
    some (toNumericList ((t.errors).getD "coerce"))
  else if op = "to_datetime" then
    some (fun s2 => s2.map toDtElem)
  else if op = "fillna" then
    some (fun s2 => s2.map (fun v =>
      match t.value with
      | none => v
      | some fv => if v.isNa then fv else v))
  else if op = "clip" then
    some (fun s2 => s2.map (fun v =>
      match toNumElem v with
      | none => Val.null
      | some q =>
        Val.num (min (max q ((t.lowerB).getD q)) ((t.upperB).getD q))))
  else if op = "round" then
    some (fun s2 => s2.map (fun v =>
      match toNumElem v with
      | none => Val.null
      | some q => Val.num (roundQ q t.decimals)))
  else if op = "units_strip" then
    some (fun s2 => s2.map (strOp (fun str0 =>
      pyStrip (reSub
        ((t.pattern).getD "\\s*(cm|mmHg|kg|mg|g|lbs|lb)$") "" str0))))
  else if op = "pad_left" then
    some (fun s2 => s2.map (strOp
      (pyPad "left" t.width (String.mk (t.fillchar.data.take 1)))))
  else if op = "pad_right" then
    some (fun s2 => s2.map (strOp
      (pyPad "right" t.width (String.mk (t.fillchar.data.take 1)))))
  else if op = "substr" then
    some (fun s2 => s2.map (strOp
      (pySlice t.start ((t.length).map (fun len => t.start + len)))))
  else if op = "unit_convert" then
    if ((t.rule).getD "") = "" then none
    else some (unitConvertFun ((t.rule).getD "") t.roundD)
  else if op = "format" then
    some (formatFun t.fmt t.na)
  else none

/-- One iteration of the `for t in transforms` loop: compute the op's
mask and apply the dispatched slice function to the masked subset. -/
def applyStep (ctx : Option Table) (out : List Val) (t : ServerOp) :
    List Val :=
  match stepFun t with
  | none => out
  | some f => applyMasked out (maskFor ctx out.length t) f

/-- `ModificationsService.apply`: the ordered fold of the op list over
the series, with the optional row-context frame for per-op `where`
masks. -/
def modsApply (s : List Val) (transforms : List ServerOp)
    (ctx : Option Table) : List Val :=
  if transforms.isEmpty then s
  else transforms.foldl (applyStep ctx) s

/-! ### `ui_mods_to_server_ops` (translate.py) -/

/-- Model of `re.escape`: in the literal-pattern regex model, escaping a
literal is the identity. -/
def escReS (s : String) : String := s

/-- The server ops contributed by one enabled UI modification item
(the body of the `for m in ui_mods` loop), together with its `ignored`
contribution. -/
def uiModOps (m : UiMod) : List ServerOp × List String :=
  let t := pyLower ((m.type).getD "")
  if t = "replace" then
    let pattern0 := orDefault m.find ""
    let pattern := if m.regex then pattern0 else escReS pattern0
    let flags := if m.case_sensitive then "" else "i"
    ([{ op := some "regex_replace", pattern := some pattern,
        repl := some m.replaceVal, flags := some flags }], [])
  else if t = "pad" then
    let side := pyLower (orDefault m.side "left")
    let width := (m.length).getD 0
    let c0 := (m.char).getD "0"
    let c1 := if c0 = "" then "0" else c0
    ([{ op := some (if side = "right" then "pad_right" else "pad_left"),
        width := width, fillchar := String.mk (c1.data.take 1) }], [])
  else if t = "case" then
    let mode := pyLower (orDefault m.mode "upper")
    if mode = "upper" ∨ mode = "lower" ∨ mode = "title" then
      ([{ op := some mode }], [])
    else ([], [t])
  else if t = "value_map" then
    ((if m.trim then [{ op := some "trim" }] else []) ++
      [{ op := some "value_map", vmap := m.vmap, default := m.default,
         case_insensitive := !m.case_sensitive }], [])
  else if t = "substring_pos" then
    match m.length with
    | some len =>
      ([{ op := some "substr", start := m.start, length := some len }],
        [])
    | none => ([{ op := some "substr", start := m.start }], [])
  else if t = "to_numeric" then
    let thous : List ServerOp :=
      match m.thousands_sep with
      | none => []
      | some v =>
        if v = "" then []
        else [{ op := some "regex_replace", pattern := some (escReS v),
                repl := some "" }]
    let dec : List ServerOp :=
      match m.decimal_sep with
      | none => []
      | some v =>
        if v = "" ∨ v = "." then []
        else [{ op := some "regex_replace", pattern := some (escReS v),
                repl := some "." }]
    (thous ++ dec ++
      [{ op := some "to_numeric",
         errors := some (if m.coerce = some false then "ignore"
           else "coerce") }], [])
  else if t = "datetime_parse" then
    ([{ op := some "to_datetime",
        format := (match m.input_format with
          | none => none
          | some v => if v = "" then none else some v),
        errors := some "coerce", utc := false }], [])
  else if t = "trim" then
    ([{ op := some "trim" }], [])
  else if t = "unit_convert" then
    ([{ op := some "unit_convert", rule := some ((m.rule).getD ""),
        roundD := m.roundD, whereArg := m.whereArg }], [])
  else if t = "format" then
    ([{ op := some "format", fmt := m.fmt, na := m.na,
        whereArg := m.whereArg }], [])
  else ([], [t])

/-- `ui_mods_to_server_ops`: UI order is preserved, disabled items are
skipped, unknown types are reported in the `ignored` list. -/
def ui_mods_to_server_ops (uiMods : List UiMod) :
    List ServerOp × List String :=
  uiMods.foldl
    (fun acc m =>
      if m.enabled = some false then acc
      else
        let r := uiModOps m
        (acc.1 ++ r.1, acc.2 ++ r.2))
    ([], [])

/-! ### `Transformer.run_transform` -/

/-- One persisted output-header row (`SDTMColumn`). -/
structure SDTMColumnRow where
  id : Nat
  mapping_schema_id : Nat
  source_file_id : Nat
  sdtm_variable_id : Nat
  deriving DecidableEq, Repr

/-- One persisted output cell (`SDTMData`). -/
structure SDTMDataRow where
  sdtm_column_id : Nat
  row_index : Nat
  value : Option String
  deriving DecidableEq, Repr

/-- The mutable database tables the transform writes. -/
structure DBState where
  sdtmColumns : List SDTMColumnRow
  sdtmData : List SDTMDataRow
  deriving DecidableEq, Repr

/-- One buffered session operation of the run's transaction. -/
inductive DbOp where
  | delCols (schema_id file_id : Nat)
  | insCol (c : SDTMColumnRow)
  | insData (d : SDTMDataRow)
  deriving DecidableEq, Repr

/-- Does a header row belong to the (schema, file) pair being rebuilt? -/
def colScoped (schemaId fileId : Nat) (c : SDTMColumnRow) : Bool :=
  c.mapping_schema_id = schemaId && c.source_file_id = fileId

/-- Apply one committed operation: the scoped delete cascades to the
cells of the deleted headers (`ON DELETE CASCADE`); inserts append. -/
def applyDbOp (db : DBState) : DbOp → DBState
  | DbOp.delCols sid fid =>
    let removed := db.sdtmColumns.filter (colScoped sid fid)
    { sdtmColumns := db.sdtmColumns.filter
        (fun c => !(colScoped sid fid c)),
      sdtmData := db.sdtmData.filter
        (fun d => !(removed.any (fun c => c.id = d.sdtm_column_id))) }
  | DbOp.insCol c => { db with sdtmColumns := db.sdtmColumns ++ [c] }
  | DbOp.insData d => { db with sdtmData := db.sdtmData ++ [d] }

/-- Commit: apply the buffered operations in order. -/
def applyDbOps (db : DBState) (ops : List DbOp) : DBState :=
  ops.foldl applyDbOp db

/-- One emitter of a domain block: optional row filter and its
assignment list. -/
structure Emitter where
  whereArg : WhereArg := WhereArg.null
  assign : List Assign := []
  deriving Repr

/-- One domain block: domain code, `common.assign`, emitters. -/
structure DomainCfg where
  domain : Option String := none
  commonAssign : List Assign := []
  emitters : List Emitter := []
  deriving Repr

/-- The mapping document (`mapping_json`). -/
structure Mapping where
  domains : List DomainCfg := []
  deriving Repr

/-- The run errors the transform raises (`ValueError`s of
`run_transform`). -/
inductive RunErr where
  | noMapping
  | noStandard
  | unknownVars (standardId : Nat) (missing : List (String × String))
  deriving DecidableEq, Repr

/-- The threaded state of the domain/emitter loops. -/
structure RunSt where
  colIdByVarId : List (Nat × Nat) := []
  nextRowIdxByDomain : List (String × Nat) := []
  missingVars : List (String × String) := []
  nextColId : Nat := 0
  ops : List DbOp := []
  stats : List (String × Nat × Nat) := []
  deriving Repr

/-- Python truthiness of the `where` value (`None` and `{}` are falsy). -/
def whereTruthy : WhereArg → Bool
  | WhereArg.null => false
  | WhereArg.emptyDict => false
  | WhereArg.node _ => true

/-- `var_id_by_dom_var.get((domain, var))`. -/
def lookupNat (m : List ((String × String) × Nat)) (k : String × String) :
    Option Nat :=
  (m.find? (fun p => p.1 = k)).map (·.2)

/-- Dictionary write (update in place or append), keyed by `Nat`. -/
def updAssocN (m : List (Nat × Nat)) (k v : Nat) : List (Nat × Nat) :=
  if m.any (fun p => p.1 = k) then
    m.map (fun p => if p.1 = k then (k, v) else p)
  else m ++ [(k, v)]

/-- Dictionary write (update in place or append), keyed by `String`. -/
def updAssocS (m : List (String × Nat)) (k : String) (v : Nat) :
    List (String × Nat) :=
  if m.any (fun p => p.1 = k) then
    m.map (fun p => if p.1 = k then (k, v) else p)
  else m ++ [(k, v)]

/-- `stats[domain_code] = ...` (dict write preserving position). -/
def setStat (stats : List (String × Nat × Nat)) (k : String)
    (v : Nat × Nat) : List (String × Nat × Nat) :=
  if stats.any (fun p => p.1 = k) then
    stats.map (fun p => if p.1 = k then (k, v) else p)
  else stats ++ [(k, v)]

/-- Stable insertion into a sorted list (ascending). -/
def insSorted (le : String × String → String × String → Bool)
    (x : String × String) : List (String × String) →
    List (String × String)
  | [] => [x]
  | y :: ys => if le x y then x :: y :: ys else y :: insSorted le x ys

/-- Lexicographic order on (domain, variable) pairs, as Python sorts
tuples of strings. -/
def pairLe (a b : String × String) : Bool :=
  a.1 < b.1 || (a.1 = b.1 && a.2 ≤ b.2)

/-- Keep the first occurrence of each pair. -/
def dedupFirst (seen : List (String × String)) :
    List (String × String) → List (String × String)
  | [] => []
  | x :: xs =>
    if x ∈ seen then dedupFirst seen xs
    else x :: dedupFirst (x :: seen) xs

/-- `sorted(set(missing_vars))`. -/
def sortedDedup (l : List (String × String)) : List (String × String) :=
  (dedupFirst [] l).foldl (fun acc x => insSorted pairLe x acc) []

/-- The evaluated series of one assignment inside the emitter loop:
primary evaluation, fallback, then the translated UI modifications
(applied without a row context, as `self.modifier.apply(series, ops)` is
called without `df`/`utils`).  The final
`astype(object).where(notna, None)` null normalization is the identity
on this value model. -/
def emitterSeries (dfSub : Table) (a : Assign) : List Val :=
  let series := eval_assign_series dfSub a
  let series :=
    match a.fallback with
    | some fb => apply_fallback series dfSub fb
    | none => series
  if a.mods.isEmpty then series
  else
    let tr := ui_mods_to_server_ops a.mods
    if tr.1.isEmpty then series
    else modsApply series tr.1 none

/-- `values_by_to`: insertion-ordered dict from the target name to its
series.  After the merge the kept target names are nonempty and unique
up to case, so `a["to"]` never raises and the `getD` default is never
taken. -/
def valuesByTo (dfSub : Table) (assigns : List Assign) :
    List (String × List Val) :=
  assigns.map (fun a => (((a.toName).getD ""), emitterSeries dfSub a))

/-- The variable-resolution loop of one emitter: look each output
variable up in the preloaded dictionary, collect misses into
`missing_vars`, reuse or create (`flush`-allocate) header rows for
hits. -/
def resolveVars (schemaId fileId : Nat)
    (varMap : List ((String × String) × Nat)) (domainCode : String) :
    List String → RunSt × List (String × Nat) →
    RunSt × List (String × Nat)
  | [], p => p
  | varName :: rest, (st, colFor) =>
    let next : RunSt × List (String × Nat) :=
      match lookupNat varMap (domainCode, varName) with
      | none =>
        ({ st with missingVars :=
            st.missingVars ++ [(domainCode, varName)] }, colFor)
      | some varId =>
        if varId = 0 then
          ({ st with missingVars :=
              st.missingVars ++ [(domainCode, varName)] }, colFor)
        else
          match (st.colIdByVarId.find? (fun q => q.1 = varId)).map
              (·.2) with
          | some colId =>
            if colId = 0 then
              ({ st with
                  nextColId := st.nextColId + 1,
                  colIdByVarId := updAssocN st.colIdByVarId varId
                      st.nextColId,
                  ops := st.ops ++ [DbOp.insCol
                      ⟨st.nextColId, schemaId, fileId, varId⟩] },
                colFor ++ [(varName, st.nextColId)])
            else (st, colFor ++ [(varName, colId)])
          | none =>
            ({ st with
                nextColId := st.nextColId + 1,
                colIdByVarId := updAssocN st.colIdByVarId varId
                    st.nextColId,
                ops := st.ops ++ [DbOp.insCol
                    ⟨st.nextColId, schemaId, fileId, varId⟩] },
              colFor ++ [(varName, st.nextColId)])
    resolveVars schemaId fileId varMap domainCode rest next

/-- The cell-buffer loop: for every surviving row and output variable,
one `SDTMData` insert (chunked writes do not change the committed
content). -/
def cellOps (outVars : List String) (vbt : List (String × List Val))
    (colFor : List (String × Nat)) (startIdx nsub : Nat) : List DbOp :=
  (List.range nsub).flatMap (fun i =>
    outVars.map (fun varName =>
      let colId := (((colFor.find? (fun p => p.1 = varName)).map
        (·.2)).getD 0)
      let v := ((((vbt.find? (fun p => p.1 = varName)).map
        (·.2)).getD []).getD i Val.null)
      DbOp.insData ⟨colId, startIdx + i,
        match v with
        | Val.null => none
        | v => some (pyStr v)⟩))

/-- One iteration of the emitter loop (`for e in emitters`), threading
the run state and this domain's row/cell counters. -/
def processEmitter (schemaId fileId standardId : Nat) (df : Table)
    (colTypes : List (String × String))
    (varMap : List ((String × String) × Nat)) (domainCode : String)
    (commonAssign : List Assign) (acc : RunSt × Nat × Nat)
    (e : Emitter) : Except RunErr (RunSt × Nat × Nat) :=
  let mask :=
    if whereTruthy e.whereArg then eval_where df e.whereArg colTypes
    else List.replicate df.nrows true
  if mask.count true = 0 then Except.ok acc
  else
    let dfSub := df.subset mask
    let finalAssigns := merge_assigns_no_override commonAssign e.assign
    let vbt := valuesByTo dfSub finalAssigns
    let outVars := vbt.map (·.1)
    if outVars.isEmpty then Except.ok acc
    else
      let r := resolveVars schemaId fileId varMap domainCode outVars
        (acc.1, [])
      if r.1.missingVars ≠ [] then
        Except.error (RunErr.unknownVars standardId
          (sortedDedup r.1.missingVars))
      else
        let startIdx :=
          (((r.1.nextRowIdxByDomain.find? (fun p => p.1 = domainCode)).map
            (·.2)).getD 0)
        let nsub := dfSub.nrows
        Except.ok
          ({ r.1 with
              nextRowIdxByDomain := updAssocS r.1.nextRowIdxByDomain
                domainCode (startIdx + nsub),
              ops := r.1.ops ++ cellOps outVars vbt r.2 startIdx nsub },
            acc.2.1 + nsub, acc.2.2 + nsub * outVars.length)

/-- The emitter loop of one domain block. -/
def processEmitters (schemaId fileId standardId : Nat) (df : Table)
    (colTypes : List (String × String))
    (varMap : List ((String × String) × Nat)) (domainCode : String)
    (commonAssign : List Assign) :
    RunSt × Nat × Nat → List Emitter → Except RunErr (RunSt × Nat × Nat)
  | acc, [] => Except.ok acc
  | acc, e :: es =>
    match processEmitter schemaId fileId standardId df colTypes varMap
        domainCode commonAssign acc e with
    | Except.error err => Except.error err
    | Except.ok acc2 =>
      processEmitters schemaId fileId standardId df colTypes varMap
        domainCode commonAssign acc2 es

/-- One iteration of the domain loop: skip empty domain codes, run the
emitters, then record the domain's row/cell statistics. -/
def processDomain (schemaId fileId standardId : Nat) (df : Table)
    (colTypes : List (String × String))
    (varMap : List ((String × String) × Nat)) (st : RunSt)
    (d : DomainCfg) : Except RunErr RunSt :=
  let domainCode := pyUpper ((d.domain).getD "")
  if domainCode = "" then Except.ok st
  else
    match processEmitters schemaId fileId standardId df colTypes varMap
        domainCode d.commonAssign (st, 0, 0) d.emitters with
    | Except.error err => Except.error err
    | Except.ok (st2, dr, dc) =>
      Except.ok { st2 with
        stats := setStat st2.stats domainCode (dr, dc) }

/-- The domain loop. -/
def processDomains (schemaId fileId standardId : Nat) (df : Table)
    (colTypes : List (String × String))
    (varMap : List ((String × String) × Nat)) :
    RunSt → List DomainCfg → Except RunErr RunSt
  | st, [] => Except.ok st
  | st, d :: ds =>
    match processDomain schemaId fileId standardId df colTypes varMap
        st d with
    | Except.error err => Except.error err
    | Except.ok st2 =>
      processDomains schemaId fileId standardId df colTypes varMap
        st2 ds

/-- The run's returned statistics: per-domain rows/cells plus totals. -/
def runStats (stats : List (String × Nat × Nat)) :
    List (String × Nat × Nat) × Nat × Nat :=
  (stats, (stats.map (fun p => p.2.1)).sum,
    (stats.map (fun p => p.2.2)).sum)

/-- `Transformer.run_transform` for one (schema, file) pair.  The
read-only inputs (mapping document, standard id, the pivoted source
frame, the column dtype map, the preloaded variable dictionary) are
passed as resolved values; `firstColId` seeds the id sequence the
`flush` calls draw from.  The whole run is one transaction: the session
buffers the scoped delete and all inserts, `commit` applies them in
order, and any raise rolls the session back, leaving the state
untouched. -/
def run_transform (db : DBState) (schemaId fileId : Nat)
    (mapping? : Option Mapping) (standardId? : Option Nat) (df : Table)
    (colTypes : List (String × String))
    (varMap : List ((String × String) × Nat)) (firstColId : Nat) :
    DBState × Except RunErr (List (String × Nat × Nat) × Nat × Nat) :=
  match mapping? with
  | none => (db, Except.error RunErr.noMapping)
  | some mapping =>
    match standardId? with
    | none => (db, Except.error RunErr.noStandard)
    | some standardId =>
      if mapping.domains.isEmpty then
        (applyDbOp db (DbOp.delCols schemaId fileId),
          Except.ok ([], 0, 0))
      else
        match processDomains schemaId fileId standardId df colTypes
            varMap { nextColId := firstColId } mapping.domains with
        | Except.error err => (db, Except.error err)
        | Except.ok st =>
          (applyDbOps db (DbOp.delCols schemaId fileId :: st.ops),
            Except.ok (runStats st.stats))

/-- The misses one variable contributes during resolution. -/
def missFn (varMap : List ((String × String) × Nat))
    (domainCode : String) (v : String) : Option (String × String) :=
  match lookupNat varMap (domainCode, v) with
  | none => some (domainCode, v)
  | some vid => if vid = 0 then some (domainCode, v) else none

/-- The unresolved output-variable names of one emitter, recomputed
standalone: empty when the emitter is skipped (no matching rows or no
output variables), else the merged target names missing from the
dictionary, in order. -/
def emitterMissing (df : Table) (colTypes : List (String × String))
    (varMap : List ((String × String) × Nat)) (domainCode : String)
    (commonAssign : List Assign) (e : Emitter) :
    List (String × String) :=
  let mask :=
    if whereTruthy e.whereArg then eval_where df e.whereArg colTypes
    else List.replicate df.nrows true
  if mask.count true = 0 then []
  else
    let outVars := (merge_assigns_no_override commonAssign
      e.assign).map (fun a => ((a.toName).getD ""))
    if outVars.isEmpty then []
    else outVars.filterMap (missFn varMap domainCode)

/-- Scan a domain's emitters in order for the first one with unresolved
names. -/
def scanEmitters (df : Table) (colTypes : List (String × String))
    (varMap : List ((String × String) × Nat)) (domainCode : String)
    (commonAssign : List Assign) :
    List Emitter → Option (List (String × String))
  | [] => none
  | e :: es =>
    let miss := emitterMissing df colTypes varMap domainCode
      commonAssign e
    if miss ≠ [] then some (sortedDedup miss)
    else scanEmitters df colTypes varMap domainCode commonAssign es

/-- The domain-level scan: skip an empty domain code, else scan the
domain's emitters. -/
def domainScan (df : Table) (colTypes : List (String × String))
    (varMap : List ((String × String) × Nat)) (d : DomainCfg) :
    Option (List (String × String)) :=
  let code := pyUpper ((d.domain).getD "")
  if code = "" then none
  else scanEmitters df colTypes varMap code d.commonAssign d.emitters

/-- Scan the domains in order for the first emitter with unresolved
names; its (deduplicated, sorted) misses are what the run reports. -/
def firstEmitterMissing (df : Table)
    (colTypes : List (String × String))
    (varMap : List ((String × String) × Nat)) :
    List DomainCfg → Option (List (String × String))
  | [] => none
  | d :: ds =>
    match domainScan df colTypes varMap d with
    | some vs => some vs
    | none => firstEmitterMissing df colTypes varMap ds

/-- All buffered operations are inserts with ids at or above the seed. -/
def opInsertGE (firstColId : Nat) : DbOp → Prop
  | DbOp.delCols _ _ => False
  | DbOp.insCol c => firstColId ≤ c.id
  | DbOp.insData d => firstColId ≤ d.sdtm_column_id

/-- The loop invariant on the run state: the id counter never falls
below the seed, every cached header id and every buffered insert stays
at or above the seed. -/
def StOk (firstColId : Nat) (st : RunSt) : Prop :=
  firstColId ≤ st.nextColId ∧
  (∀ p ∈ st.colIdByVarId, firstColId ≤ p.2) ∧
  (∀ op ∈ st.ops, opInsertGE firstColId op)

/-! ### Theorems -/

/-- Looking up after an insert-if-absent: the old binding wins; the new
binding is visible only for its own nonempty key when it was absent. -/
theorem idxLookup_insKV (idx : List (String × IdxEntry)) (a : String)
    (b : IdxEntry) (k : String) :
    idxLookup (insKV idx a b) k =
      (idxLookup idx k).or (if a ≠ "" ∧ a = k then some b else none) := by
  unfold insKV idxLookup
  by_cases ha : a = ""
  · simp [ha]
  · by_cases habs : (idx.find? (fun p => p.1 = a)).isNone
    · rw [if_pos ⟨ha, habs⟩, List.find?_append]
      by_cases hk : a = k
      · subst hk
        rw [Option.isNone_iff_eq_none.mp habs]
        simp [List.find?, ha]
      · have h2 : List.find? (fun p => p.1 = k) [(a, b)] = none := by
          simp [List.find?, hk]
        rw [h2]
        simp [ha, hk]
    · rw [if_neg (fun h => habs h.2)]
      by_cases hk : a = k
      · subst hk
        cases hf : idx.find? (fun p => p.1 = a) with
        | none => exact absurd (by simp [hf]) habs
        | some v => simp [hf, ha]
      · simp [hk]

/-- Folding insert-if-absent over an entry stream: lookup is the old
binding, else the first stream entry with that (nonempty) key. -/
theorem idxLookup_foldl_ins (entries : List (String × IdxEntry))
    (idx : List (String × IdxEntry)) (k : String) :
    idxLookup (entries.foldl (fun idx p => insKV idx p.1 p.2) idx) k =
      (idxLookup idx k).or
        (((entries.filter (fun p => p.1 ≠ "")).find?
          (fun p => p.1 = k)).map (·.2)) := by
  induction entries generalizing idx with
  | nil => simp
  | cons p ps ih =>
    rw [List.foldl_cons, ih, idxLookup_insKV]
    by_cases hp : p.1 = ""
    · simp [hp]
    · by_cases hk : p.1 = k
      · have hk0 : ¬ k = "" := by rw [← hk]; exact hp
        simp [hp, hk, hk0, List.filter_cons, List.find?_cons, Option.or_assoc]
      · simp [hp, hk, List.filter_cons, List.find?_cons, Option.or_assoc]

/-- One term's insertions equal folding insert-if-absent over its entry
list (submission value first, then synonyms). -/
theorem idxInsertTerm_eq_foldl (trim cs : Bool)
    (idx : List (String × IdxEntry)) (t : CTerm) :
    idxInsertTerm trim cs idx t =
      (termEntryList trim cs t).foldl (fun idx p => insKV idx p.1 p.2) idx := by
  unfold idxInsertTerm termEntryList
  rw [List.foldl_cons, List.foldl_map]

/-- The whole build equals folding insert-if-absent over the concatenated
per-term entry streams. -/
theorem build_eq_foldl_stream (terms : List CTerm) (trim cs : Bool)
    (idx : List (String × IdxEntry)) :
    terms.foldl (idxInsertTerm trim cs) idx =
      (terms.flatMap (termEntryList trim cs)).foldl
        (fun idx p => insKV idx p.1 p.2) idx := by
  induction terms generalizing idx with
  | nil => simp
  | cons t ts ih =>
    rw [List.foldl_cons, List.flatMap_cons, List.foldl_append, ih,
      idxInsertTerm_eq_foldl]

/-- C5 (amended): in the synonym index, each term's submission value is
indexed before that term's synonyms and the first occurrence wins
globally: a lookup equals the first match in the stream that lists, per
term in build order, the submission-value entry and then the synonym
entries (nonempty normalized keys only).  Consequently a key equal to a
term's normalized submission value never resolves to a synonym of the
same term, but may resolve to an entry — even a synonym — of an earlier
term. -/
theorem C5_synonym_index_stream (terms : List CTerm) (trim cs : Bool)
    (k : String) :
    idxLookup (build_synonym_index terms trim cs) k =
      ((indexEntryStream terms trim cs).find? (fun p => p.1 = k)).map
        (·.2) := by
  unfold build_synonym_index indexEntryStream
  rw [build_eq_foldl_stream, idxLookup_foldl_ins]
  simp [idxLookup]

/-- C5 as stated fails: term `C1` (submission value `A`) carries synonym
`x`; the later term `C2` has submission value `x`.  The normalized key
`x` equals term `C2`'s normalized submission value, yet it resolves to
the synonym entry of term `C1`, not to a submission-value match. -/
theorem C5_counterexample :
    normSub true false ⟨some "x", none, some "C2"⟩ = "x" ∧
    idxLookup
      (build_synonym_index
        [⟨some "A", some "x", some "C1"⟩, ⟨some "x", none, some "C2"⟩]
        true false) "x" =
      some ⟨some "A", "synonym", some "C1", some "x"⟩ := by
  decide


/-- Folding `mergeStep` over a list whose keys are nonempty, pairwise
distinct and unseen appends the whole list to the accumulator. -/
theorem mergeStep_foldl_append (xs : List Assign) (seen : List String)
    (acc : List Assign)
    (hne : ∀ a ∈ xs, assignKey a ≠ "")
    (hnd : (xs.map assignKey).Nodup)
    (hseen : ∀ a ∈ xs, assignKey a ∉ seen) :
    (xs.foldl mergeStep (seen, acc)).2 = acc ++ xs := by
  induction xs generalizing seen acc with
  | nil => simp
  | cons a xs ih =>
    simp only [List.map_cons, List.nodup_cons] at hnd
    have hk : assignKey a ≠ "" := hne a (List.mem_cons_self a xs)
    have hs : assignKey a ∉ seen := hseen a (List.mem_cons_self a xs)
    have hstep : mergeStep (seen, acc) a =
        (assignKey a :: seen, acc ++ [a]) := by
      simp [mergeStep, hk, hs]
    rw [List.foldl_cons, hstep]
    rw [ih (assignKey a :: seen) (acc ++ [a])
      (fun b hb => hne b (List.mem_cons_of_mem a hb))
      hnd.2
      (fun b hb => by
        simp only [List.mem_cons]
        push_neg
        refine ⟨?_, hseen b (List.mem_cons_of_mem a hb)⟩
        intro heq
        exact hnd.1 (heq ▸ List.mem_map_of_mem assignKey hb))]
    simp

/-- C4 (amended): if the case-normalized target names of `A` and of `B`
are nonempty, pairwise distinct within each list and disjoint across the
two lists, then `merge_assigns_no_override A B = A ++ B`, order
preserved. -/
theorem C4_merge_disjoint_concat (A B : List Assign)
    (hne : ∀ a ∈ A ++ B, assignKey a ≠ "")
    (hndA : (A.map assignKey).Nodup)
    (hndB : (B.map assignKey).Nodup)
    (hdisj : ∀ a ∈ A, ∀ b ∈ B, assignKey a ≠ assignKey b) :
    merge_assigns_no_override A B = A ++ B := by
  have hnd : ((A ++ B).map assignKey).Nodup := by
    rw [List.map_append, List.nodup_append]
    refine ⟨hndA, hndB, ?_⟩
    intro x hx hx2
    obtain ⟨a, ha, rfl⟩ := List.mem_map.mp hx
    obtain ⟨b, hb, hba⟩ := List.mem_map.mp hx2
    exact hdisj a ha b hb hba.symm
  unfold merge_assigns_no_override
  rw [mergeStep_foldl_append (A ++ B) [] [] hne hnd (by simp)]
  simp

/-- Witness for C4: a concrete two-element disjoint instance. -/
theorem C4_merge_disjoint_concat_witness :
    merge_assigns_no_override
      [⟨some "A", some "static", Val.str "1", none, []⟩]
      [⟨some "B", some "static", Val.str "2", none, []⟩] =
      [⟨some "A", some "static", Val.str "1", none, []⟩,
       ⟨some "B", some "static", Val.str "2", none, []⟩] := by
  apply C4_merge_disjoint_concat
  · decide
  · decide
  · decide
  · decide

/-- C4 as stated fails: with `A` containing two assignments whose target
names coincide (name sets of `A` and `B = []` are still disjoint), the
merge deduplicates inside `A`, so the result is not `A ++ B`. -/
theorem C4_counterexample :
    (∀ a ∈ [(⟨some "X", some "static", Val.str "1", none, []⟩ : Assign),
            ⟨some "X", some "static", Val.str "2", none, []⟩],
      ∀ b ∈ ([] : List Assign), assignKey a ≠ assignKey b) ∧
    merge_assigns_no_override
      [⟨some "X", some "static", Val.str "1", none, []⟩,
       ⟨some "X", some "static", Val.str "2", none, []⟩] [] ≠
      [⟨some "X", some "static", Val.str "1", none, []⟩,
       ⟨some "X", some "static", Val.str "2", none, []⟩] ++ [] := by
  refine ⟨fun a _ b hb => absurd hb (List.not_mem_nil b), fun h => ?_⟩
  have hlen := congrArg List.length h
  have h1 : merge_assigns_no_override
      [⟨some "X", some "static", Val.str "1", none, []⟩,
       ⟨some "X", some "static", Val.str "2", none, []⟩] [] =
      [⟨some "X", some "static", Val.str "1", none, []⟩] := by
    simp [merge_assigns_no_override, mergeStep, assignKey, pyUpper]
  rw [h1] at hlen
  simp at hlen

/-- C6: the predicate evaluator returns an all-true mask of the table's
length when the condition is absent (null), an empty dict, or a group
node with an empty children list. -/
theorem C6_empty_condition_matches_all (tbl : Table)
    (colTypes : List (String × String)) (logic? field? op? : Option String)
    (v : Val) :
    eval_where tbl WhereArg.null colTypes =
        List.replicate tbl.nrows true ∧
    eval_where tbl WhereArg.emptyDict colTypes =
        List.replicate tbl.nrows true ∧
    eval_where tbl
        (WhereArg.node
          (WhereDict.mk (some "group") logic? [] field? op? v)) colTypes =
        List.replicate tbl.nrows true := by
  refine ⟨rfl, rfl, ?_⟩
  simp [eval_where, evalNode, evalNodeList, combineMasks]

/-- C3 as stated fails: a rule on a `text` (string-base) column with a
relational operator returns the fail-open all-true mask, not an
all-false mask. -/
theorem C3_counterexample :
    canonBase (some "text") = "string" ∧
    eval_where (Table.mk [("A", [some "1"])] 1)
        (WhereArg.node
          (WhereDict.mk (some "rule") none [] (some "A") (some ">")
            (Val.str "0"))) [("A", "text")] ≠
      List.replicate (Table.mk [("A", [some "1"])] 1).nrows false ∧
    eval_where (Table.mk [("A", [some "1"])] 1)
        (WhereArg.node
          (WhereDict.mk (some "rule") none [] (some "A") (some ">")
            (Val.str "0"))) [("A", "text")] = [true] := by
  decide

/-- C3 (amended): for every rule node whose resolved column's declared
base type is not numeric or datetime, a relational operator does not
crash and returns the fail-open all-true (match-all) mask — not an
all-false mask. -/
theorem C3_relational_non_numeric_fail_open (tbl : Table)
    (colTypes : List (String × String)) (type? logic? : Option String)
    (children : List WhereDict) (field? op? : Option String) (v : Val)
    (col : String)
    (hty : ¬ type? = some "group")
    (hcol : resolveCol tbl field? = some col)
    (hbase : effBase colTypes col field? ∉ ["int", "float", "datetime"])
    (hop : pyLower (orDefault op? "==") ∈ [">", "<", ">=", "<="]) :
    eval_where tbl
      (WhereArg.node (WhereDict.mk type? logic? children field? op? v))
      colTypes = List.replicate tbl.nrows true := by
  simp only [List.mem_cons, List.not_mem_nil, or_false] at hbase hop
  push_neg at hbase
  obtain ⟨hb1, hb2, hb3⟩ := hbase
  simp only [eval_where, evalNode, if_neg hty]
  rcases hop with h | h | h | h <;>
    rw [h] <;>
    simp [evalRuleOp, hcol, hb1, hb2, hb3]

/-- Witness for C3 (amended): a bool-typed column under operator `<`. -/
theorem C3_relational_non_numeric_fail_open_witness :
    eval_where (Table.mk [("B", [some "x", none])] 2)
      (WhereArg.node
        (WhereDict.mk (some "rule") none [] (some "B") (some "<")
          (Val.str "1"))) [("B", "bool")] = List.replicate 2 true :=
  C3_relational_non_numeric_fail_open (Table.mk [("B", [some "x", none])] 2)
    [("B", "bool")] (some "rule") none [] (some "B") (some "<")
    (Val.str "1") "B" (by decide) (by decide) (by decide) (by decide)

/-- C7: after primary evaluation, the fallback value is substituted
exactly on the rows whose primary result is null or the empty string and
on no other row; a primary result equal to the string `0` is never
replaced. -/
theorem C7_fallback_only_null_empty (series : List Val) (tbl : Table)
    (fb : Fb) (i : Nat) (hi : i < series.length) :
    (apply_fallback series tbl fb).length = series.length ∧
    (apply_fallback series tbl fb).getD i Val.null =
      (if isNaOrEmptyStr (series.getD i Val.null) then
        (fallbackSeries tbl fb).getD i Val.null
      else series.getD i Val.null) ∧
    (series.getD i Val.null = Val.str "0" →
      (apply_fallback series tbl fb).getD i Val.null = Val.str "0") := by
  have hself : series[i]? = some (series.getD i Val.null) := by
    simp [List.getD_eq_getElem?_getD, List.getElem?_eq_getElem hi]
  have hmap : (series.map isNaOrEmptyStr).getD i false =
      isNaOrEmptyStr (series.getD i Val.null) := by
    simp [List.getD_eq_getElem?_getD, List.getElem?_map,
      List.getElem?_eq_getElem hi]
  unfold apply_fallback
  by_cases hany : (series.map isNaOrEmptyStr).any id = true
  · rw [if_neg (by simp [hany])]
    have hmask : (maskSub series (series.map isNaOrEmptyStr)
        (fallbackSeries tbl fb)).getD i Val.null =
        (if isNaOrEmptyStr (series.getD i Val.null) then
          (fallbackSeries tbl fb).getD i Val.null
        else series.getD i Val.null) := by
      simp only [maskSub]
      rw [List.getD_eq_getElem?_getD, List.getElem?_map,
        List.getElem?_range hi]
      simp only [Option.map_some', Option.getD_some]
      rw [hmap]
    refine ⟨by simp [maskSub], hmask, fun h0 => ?_⟩
    rw [hmask, h0]
    rw [if_neg (by decide)]
  · have hfalse0 : (series.map isNaOrEmptyStr).any id = false := by
      simpa using hany
    rw [if_pos (by rw [hfalse0]; rfl)]
    have hmem : isNaOrEmptyStr (series.getD i Val.null) ∈
        series.map isNaOrEmptyStr :=
      List.mem_map_of_mem isNaOrEmptyStr (List.getElem?_mem hself)
    have hfalse : isNaOrEmptyStr (series.getD i Val.null) = false := by
      simpa using List.any_eq_false.mp hfalse0 _ hmem
    refine ⟨rfl, ?_, fun h0 => h0⟩
    rw [hfalse]
    simp

/-- Witness for C7: a three-row series with a null, an empty string and
the string `0`; the static fallback `X` replaces exactly the first two
rows. -/
theorem C7_fallback_only_null_empty_witness :
    (apply_fallback [Val.null, Val.str "", Val.str "0"]
        (Table.mk [] 3) ⟨some "static", Val.str "X"⟩).getD 2 Val.null =
      Val.str "0" :=
  (C7_fallback_only_null_empty [Val.null, Val.str "", Val.str "0"]
    (Table.mk [] 3) ⟨some "static", Val.str "X"⟩ 2
    (by decide)).2.2 (by decide)

/-- C8: a `column`-mode assignment resolves its column name only by
exact, case-sensitive match — a name differing in case from an existing
column yields an all-null series — whereas predicate field resolution
(`_resolve_col`) does fall back to a case-insensitive lookup. -/
theorem C8_column_exact_case_only (tbl : Table) (name c : String)
    (toN : Option String) (fb : Option Fb)
    (hname : name ∉ tbl.colNames)
    (hc : c ∈ tbl.colNames)
    (hci : pyLower c = pyLower name) :
    eval_assign_series tbl ⟨toN, some "column", Val.str name, fb, []⟩ =
      List.replicate tbl.nrows Val.null ∧
    (resolveCol tbl (some name)).isSome := by
  constructor
  · have hmode : pyLower (orDefault (some "column") "static") =
        "column" := by decide
    simp [eval_assign_series, hmode, pyStr, hname]
  · have hne : ¬ name = "" := by
      intro h0
      subst h0
      have hc0 : c = "" := by
        cases c with
        | mk data =>
          cases data with
          | nil => rfl
          | cons x xs => simp [pyLower, String.ext_iff] at hci
      exact hname (hc0 ▸ hc)
    simp only [resolveCol, if_neg hne, if_neg hname, List.find?_isSome]
    exact ⟨c, List.mem_reverse.mpr hc, by simp [hci]⟩

/-- Witness for C8: column `AGE` requested as `Age`. -/
theorem C8_column_exact_case_only_witness :
    eval_assign_series (Table.mk [("AGE", [some "30"])] 1)
        ⟨some "V", some "column", Val.str "Age", none, []⟩ =
      List.replicate (Table.mk [("AGE", [some "30"])] 1).nrows
        Val.null ∧
    (resolveCol (Table.mk [("AGE", [some "30"])] 1)
      (some "Age")).isSome :=
  C8_column_exact_case_only (Table.mk [("AGE", [some "30"])] 1) "Age"
    "AGE" (some "V") none (by decide) (by decide) (by decide)

/-- C9 as stated fails: an empty-string mode is none of `static`,
`column`, `expression`, yet Python's `assign.get("mode") or "static"`
treats it as `static`, so the value is emitted, not null. -/
theorem C9_counterexample :
    ¬ ("" = "static" ∨ "" = "column" ∨ "" = "expression") ∧
    eval_assign_series (Table.mk [("C", [some "v"])] 1)
        ⟨some "V", some "", Val.str "x", none, []⟩ = [Val.str "x"] := by
  decide

/-- C9 (amended): for every table subset and every assignment spec whose
mode string is nonempty and, lowercased, none of `static`, `column`,
`expression`, the evaluator returns null for every row and never
raises. -/
theorem C9_unknown_mode_all_null (tbl : Table) (toN : Option String)
    (m : String) (v : Val) (fb : Option Fb)
    (hm : ¬ m = "")
    (h1 : ¬ pyLower m = "static") (h2 : ¬ pyLower m = "column")
    (h3 : ¬ pyLower m = "expression") :
    eval_assign_series tbl ⟨toN, some m, v, fb, []⟩ =
      List.replicate tbl.nrows Val.null := by
  simp [eval_assign_series, orDefault, hm, h1, h2, h3]

/-- Witness for C9 (amended): the unknown mode `concat`. -/
theorem C9_unknown_mode_all_null_witness :
    eval_assign_series (Table.mk [("C", [some "v"])] 1)
        ⟨some "V", some "concat", Val.str "x", none, []⟩ =
      List.replicate (Table.mk [("C", [some "v"])] 1).nrows Val.null :=
  C9_unknown_mode_all_null (Table.mk [("C", [some "v"])] 1) (some "V")
    "concat" (Val.str "x") none (by decide) (by decide) (by decide)
    (by decide)

/-- Positions where the mask is false are untouched by the scatter of
the transformed slice. -/
theorem scatterMasked_unmasked : ∀ (s : List Val) (mask : List Bool)
    (rs : List Val) (i : Nat), mask[i]? = some false →
    (scatterMasked s mask rs)[i]? = s[i]? := by
  intro s
  induction s with
  | nil => intro mask rs i h; rfl
  | cons v vs ih =>
    intro mask rs i h
    cases mask with
    | nil => simp at h
    | cons b bs =>
      cases i with
      | zero =>
        simp only [List.getElem?_cons_zero, Option.some.injEq] at h
        simp [scatterMasked, h]
      | succ n =>
        simp only [List.getElem?_cons_succ] at h
        cases hb : b with
        | true => simp [scatterMasked, hb, ih bs rs.tail n h]
        | false => simp [scatterMasked, hb, ih bs rs n h]

/-- `_apply_masked` leaves every position with a false mask unchanged. -/
theorem applyMasked_unmasked (series : List Val) (mask : List Bool)
    (f : List Val → List Val) (i : Nat) (h : mask[i]? = some false) :
    (applyMasked series mask f)[i]? = series[i]? := by
  unfold applyMasked
  split_ifs with hany
  · rfl
  · exact scatterMasked_unmasked series mask _ i h

/-- C10: for every modification step, every row whose scope mask is
false keeps exactly the value it had before that step; only the masked
row subset is rewritten by the step's operation. -/
theorem C10_step_scope_frame (ctx : Option Table) (out : List Val)
    (t : ServerOp) (i : Nat)
    (hmask : (maskFor ctx out.length t)[i]? = some false) :
    (applyStep ctx out t)[i]? = out[i]? := by
  unfold applyStep
  cases h : stepFun t with
  | none => rfl
  | some f => exact applyMasked_unmasked out _ f i hmask

/-- Witness for C10: a `trim` step scoped to rows where `A == 1` leaves
row 1 (where `A = 2`) untouched. -/
theorem C10_step_scope_frame_witness :
    (applyStep (some (Table.mk [("A", [some "1", some "2"])] 2))
        [Val.str " x ", Val.str " y "]
        ⟨some "trim", none, none, none, [], none, false, none, none,
         false, none, none, none, 0, 0, "0", 0, none, none, none, "\x7b\x7d",
         none,
         WhereArg.node (WhereDict.mk (some "rule") none [] (some "A")
           (some "==") (Val.str "1"))⟩)[1]? =
      some (Val.str " y ") := by
  have h := C10_step_scope_frame
    (some (Table.mk [("A", [some "1", some "2"])] 2))
    [Val.str " x ", Val.str " y "]
    ⟨some "trim", none, none, none, [], none, false, none, none,
     false, none, none, none, 0, 0, "0", 0, none, none, none, "\x7b\x7d",
     none,
     WhereArg.node (WhereDict.mk (some "rule") none [] (some "A")
       (some "==") (Val.str "1"))⟩ 1 (by decide)
  rw [h]
  rfl

/-- The resolution loop appends exactly the unresolved (domain, name)
pairs to `missing_vars`, in order. -/
theorem resolveVars_missing (schemaId fileId : Nat)
    (varMap : List ((String × String) × Nat)) (domainCode : String) :
    ∀ (vars : List String) (st : RunSt) (colFor : List (String × Nat)),
    (resolveVars schemaId fileId varMap domainCode vars
      (st, colFor)).1.missingVars =
      st.missingVars ++ vars.filterMap (missFn varMap domainCode) := by
  intro vars
  induction vars with
  | nil => intro st colFor; simp [resolveVars]
  | cons v rest ih =>
    intro st colFor
    simp only [resolveVars, List.filterMap_cons]
    cases hl : lookupNat varMap (domainCode, v) with
    | none =>
      dsimp only
      rw [ih]
      simp [missFn, hl]
    | some vid =>
      dsimp only
      by_cases h0 : vid = 0
      · rw [if_pos h0, ih]
        simp [missFn, hl, h0]
      · rw [if_neg h0]
        cases hf : (st.colIdByVarId.find? (fun q => q.1 = vid)).map
            (·.2) with
        | some colId =>
          dsimp only
          by_cases hc : colId = 0
          · rw [if_pos hc, ih]
            simp [missFn, hl, h0]
          · rw [if_neg hc, ih]
            simp [missFn, hl, h0]
        | none =>
          dsimp only
          rw [ih]
          simp [missFn, hl, h0]

/-- The keys of `values_by_to` are the merged assignments' target
names, in order. -/
theorem valuesByTo_keys (dfSub : Table) (assigns : List Assign) :
    (valuesByTo dfSub assigns).map (·.1) =
      assigns.map (fun a => ((a.toName).getD "")) := by
  simp [valuesByTo, List.map_map]

/-- One emitter errors exactly when it has unresolved names (given no
misses have been carried in), and then reports their sorted
deduplication; a successful emitter hands an empty miss list on. -/
theorem processEmitter_spec (schemaId fileId standardId : Nat)
    (df : Table) (colTypes : List (String × String))
    (varMap : List ((String × String) × Nat)) (domainCode : String)
    (commonAssign : List Assign) (acc : RunSt × Nat × Nat) (e : Emitter)
    (hmiss : acc.1.missingVars = []) :
    (∀ err, processEmitter schemaId fileId standardId df colTypes varMap
        domainCode commonAssign acc e = Except.error err ↔
      (emitterMissing df colTypes varMap domainCode commonAssign e ≠ [] ∧
       err = RunErr.unknownVars standardId (sortedDedup
         (emitterMissing df colTypes varMap domainCode commonAssign
           e)))) ∧
    (∀ acc2, processEmitter schemaId fileId standardId df colTypes
        varMap domainCode commonAssign acc e = Except.ok acc2 →
      acc2.1.missingVars = []) := by
  unfold processEmitter emitterMissing
  dsimp only
  by_cases hm : ((if whereTruthy e.whereArg then
      eval_where df e.whereArg colTypes
    else List.replicate df.nrows true).count true = 0)
  · rw [if_pos hm, if_pos hm]
    refine ⟨fun err => ⟨fun h => absurd h (by simp), ?_⟩,
      fun acc2 h => ?_⟩
    · rintro ⟨hne, _⟩
      exact absurd rfl hne
    · cases h
      exact hmiss
  · rw [if_neg hm, if_neg hm, valuesByTo_keys]
    by_cases hov : ((merge_assigns_no_override commonAssign
        e.assign).map (fun a => ((a.toName).getD ""))).isEmpty
    · rw [if_pos hov, if_pos hov]
      refine ⟨fun err => ⟨fun h => absurd h (by simp), ?_⟩,
        fun acc2 h => ?_⟩
      · rintro ⟨hne, _⟩
        exact absurd rfl hne
      · cases h
        exact hmiss
    · rw [if_neg hov, if_neg hov]
      have hrm := resolveVars_missing schemaId fileId varMap domainCode
        ((merge_assigns_no_override commonAssign e.assign).map
          (fun a => ((a.toName).getD ""))) acc.1 []
      rw [hmiss, List.nil_append] at hrm
      by_cases hne : ((merge_assigns_no_override commonAssign
          e.assign).map (fun a => ((a.toName).getD ""))).filterMap
          (missFn varMap domainCode) = []
      · rw [if_neg (by rw [hrm]; simpa using hne)]
        refine ⟨fun err => ⟨fun h => absurd h (by simp), ?_⟩,
          fun acc2 h => ?_⟩
        · rintro ⟨hne2, _⟩
          exact absurd hne hne2
        · cases h
          simpa [hrm] using hne
      · rw [if_pos (by rw [hrm]; simpa using hne)]
        refine ⟨fun err => ⟨fun h => ?_, fun h => ?_⟩,
          fun acc2 h => by cases h⟩
        · injection h with h2
          exact ⟨hne, by rw [← h2, hrm]⟩
        · obtain ⟨_, rfl⟩ := h
          rw [hrm]
      
/-- The emitter loop errors exactly at the first emitter with
unresolved names, reporting that emitter's sorted deduplicated misses;
a successful pass keeps the miss list empty. -/
theorem processEmitters_spec (schemaId fileId standardId : Nat)
    (df : Table) (colTypes : List (String × String))
    (varMap : List ((String × String) × Nat)) (domainCode : String)
    (commonAssign : List Assign) :
    ∀ (es : List Emitter) (acc : RunSt × Nat × Nat),
    acc.1.missingVars = [] →
    (∀ err, processEmitters schemaId fileId standardId df colTypes
        varMap domainCode commonAssign acc es = Except.error err ↔
      (scanEmitters df colTypes varMap domainCode commonAssign es).map
        (RunErr.unknownVars standardId) = some err) ∧
    (∀ acc2, processEmitters schemaId fileId standardId df colTypes
        varMap domainCode commonAssign acc es = Except.ok acc2 →
      acc2.1.missingVars = []) := by
  intro es
  induction es with
  | nil =>
    intro acc hmiss
    refine ⟨fun err => ⟨fun h => absurd h (by simp [processEmitters]),
      fun h => by simp [scanEmitters] at h⟩, fun acc2 h => ?_⟩
    rw [processEmitters] at h
    cases h
    exact hmiss
  | cons e es ih =>
    intro acc hmiss
    cases hcase : processEmitter schemaId fileId standardId df colTypes
        varMap domainCode commonAssign acc e with
    | error err0 =>
      obtain ⟨hne0, herr0⟩ := ((processEmitter_spec schemaId fileId
        standardId df colTypes varMap domainCode commonAssign acc e
        hmiss).1 err0).mp hcase
      have hrun : processEmitters schemaId fileId standardId df colTypes
          varMap domainCode commonAssign acc (e :: es) =
          Except.error err0 := by
        rw [processEmitters, hcase]
      have hscan : scanEmitters df colTypes varMap domainCode
          commonAssign (e :: es) =
          some (sortedDedup (emitterMissing df colTypes varMap
            domainCode commonAssign e)) := by
        rw [scanEmitters]
        rw [if_pos (by simpa using hne0)]
      refine ⟨fun err => ?_, fun acc2 h => ?_⟩
      · rw [hrun, hscan]
        constructor
        · intro h
          injection h with h2
          rw [← h2, herr0]
          rfl
        · intro h
          simp only [Option.map_some', Option.some.injEq] at h
          rw [herr0, h]
      · rw [hrun] at h
        cases h
    | ok acc1 =>
      have hmiss1 : acc1.1.missingVars = [] :=
        (processEmitter_spec schemaId fileId standardId df colTypes
          varMap domainCode commonAssign acc e hmiss).2 acc1 hcase
      have hne0 : emitterMissing df colTypes varMap domainCode
          commonAssign e = [] := by
        by_contra hne
        have := ((processEmitter_spec schemaId fileId standardId df
          colTypes varMap domainCode commonAssign acc e hmiss).1
          (RunErr.unknownVars standardId (sortedDedup (emitterMissing
            df colTypes varMap domainCode commonAssign e)))).mpr
          ⟨hne, rfl⟩
        rw [hcase] at this
        cases this
      have hrun : processEmitters schemaId fileId standardId df colTypes
          varMap domainCode commonAssign acc (e :: es) =
          processEmitters schemaId fileId standardId df colTypes varMap
            domainCode commonAssign acc1 es := by
        rw [processEmitters, hcase]
      have hscan : scanEmitters df colTypes varMap domainCode
          commonAssign (e :: es) =
          scanEmitters df colTypes varMap domainCode commonAssign es := by
        rw [scanEmitters]
        rw [if_neg (by simp [hne0])]
      rw [hrun, hscan]
      exact ih acc1 hmiss1

/-- A domain block errors exactly as its domain scan reports, and a
successful block keeps the miss list empty. -/
theorem processDomain_spec (schemaId fileId standardId : Nat)
    (df : Table) (colTypes : List (String × String))
    (varMap : List ((String × String) × Nat)) (st : RunSt)
    (d : DomainCfg) (hmiss : st.missingVars = []) :
    (∀ err, processDomain schemaId fileId standardId df colTypes varMap
        st d = Except.error err ↔
      (domainScan df colTypes varMap d).map
        (RunErr.unknownVars standardId) = some err) ∧
    (∀ st2, processDomain schemaId fileId standardId df colTypes varMap
        st d = Except.ok st2 → st2.missingVars = []) := by
  unfold processDomain domainScan
  dsimp only
  by_cases hc : pyUpper ((d.domain).getD "") = ""
  · rw [if_pos hc, if_pos hc]
    refine ⟨fun err => ⟨fun h => absurd h (by simp), fun h => by
      simp at h⟩, fun st2 h => ?_⟩
    cases h
    exact hmiss
  · rw [if_neg hc, if_neg hc]
    have hes := processEmitters_spec schemaId fileId standardId df
      colTypes varMap (pyUpper ((d.domain).getD "")) d.commonAssign
      d.emitters (st, 0, 0) hmiss
    cases hpe : processEmitters schemaId fileId standardId df colTypes
        varMap (pyUpper ((d.domain).getD "")) d.commonAssign (st, 0, 0)
        d.emitters with
    | error err0 =>
      dsimp only
      have hscan := (hes.1 err0).mp hpe
      refine ⟨fun err => ?_, fun st2 h => ?_⟩
      · rw [hscan]
        constructor
        · intro h
          injection h with h2
          rw [h2]
        · intro h
          injection h with h2
          rw [h2]
      · cases h
    | ok acc1 =>
      obtain ⟨st1, dr, dc⟩ := acc1
      dsimp only
      have hm1 : st1.missingVars = [] := hes.2 (st1, dr, dc) hpe
      have hscanN : scanEmitters df colTypes varMap
          (pyUpper ((d.domain).getD "")) d.commonAssign d.emitters =
          none := by
        cases hsc : scanEmitters df colTypes varMap
            (pyUpper ((d.domain).getD "")) d.commonAssign d.emitters with
        | none => rfl
        | some vs =>
          have := (hes.1 (RunErr.unknownVars standardId vs)).mpr
            (by rw [hsc]; rfl)
          rw [hpe] at this
          cases this
      constructor
      · intro err
        constructor
        · intro h
          cases h
        · intro h
          rw [hscanN] at h
          simp at h
      · intro st2 h
        cases h
        exact hm1
  
/-- The domain loop errors exactly as the ordered scan of the domains
reports; a successful pass keeps the miss list empty. -/
theorem processDomains_spec (schemaId fileId standardId : Nat)
    (df : Table) (colTypes : List (String × String))
    (varMap : List ((String × String) × Nat)) :
    ∀ (ds : List DomainCfg) (st : RunSt), st.missingVars = [] →
    (∀ err, processDomains schemaId fileId standardId df colTypes varMap
        st ds = Except.error err ↔
      (firstEmitterMissing df colTypes varMap ds).map
        (RunErr.unknownVars standardId) = some err) ∧
    (∀ st2, processDomains schemaId fileId standardId df colTypes varMap
        st ds = Except.ok st2 → st2.missingVars = []) := by
  intro ds
  induction ds with
  | nil =>
    intro st hmiss
    refine ⟨fun err => ⟨fun h => absurd h (by simp [processDomains]),
      fun h => by simp [firstEmitterMissing] at h⟩, fun st2 h => ?_⟩
    rw [processDomains] at h
    cases h
    exact hmiss
  | cons d ds ih =>
    intro st hmiss
    have hds := processDomain_spec schemaId fileId standardId df
      colTypes varMap st d hmiss
    cases hcase : processDomain schemaId fileId standardId df colTypes
        varMap st d with
    | error err0 =>
      have hscan := (hds.1 err0).mp hcase
      cases hdsc : domainScan df colTypes varMap d with
      | none =>
        rw [hdsc] at hscan
        simp at hscan
      | some vs0 =>
        rw [hdsc] at hscan
        simp only [Option.map_some', Option.some.injEq] at hscan
        have hrun : processDomains schemaId fileId standardId df
            colTypes varMap st (d :: ds) = Except.error err0 := by
          rw [processDomains, hcase]
        have hfirst : firstEmitterMissing df colTypes varMap (d :: ds) =
            some vs0 := by
          rw [firstEmitterMissing, hdsc]
        refine ⟨fun err => ?_, fun st2 h => ?_⟩
        · rw [hrun, hfirst]
          simp only [Option.map_some']
          constructor
          · intro h
            injection h with h2
            rw [hscan, h2]
          · intro h
            injection h with h2
            rw [← h2, ← hscan]
        · rw [hrun] at h
          cases h
    | ok st1 =>
      have hm1 := hds.2 st1 hcase
      have hdscN : domainScan df colTypes varMap d = none := by
        cases hsc : domainScan df colTypes varMap d with
        | none => rfl
        | some vs =>
          have := (hds.1 (RunErr.unknownVars standardId vs)).mpr
            (by rw [hsc]; rfl)
          rw [hcase] at this
          cases this
      have hrun : processDomains schemaId fileId standardId df colTypes
          varMap st (d :: ds) =
          processDomains schemaId fileId standardId df colTypes varMap
            st1 ds := by
        rw [processDomains, hcase]
      have hfirst : firstEmitterMissing df colTypes varMap (d :: ds) =
          firstEmitterMissing df colTypes varMap ds := by
        rw [firstEmitterMissing, hdscN]
      rw [hrun, hfirst]
      exact ih st1 hm1

/-- What the code does instead of C1's batched reporting: a transform
run fails with an unresolved-variables error exactly when some emitter
references unresolved names, and the reported list is the sorted
deduplication of the misses of the FIRST such emitter (in domain, then
emitter order) alone; the run aborts there and later emitters are never
examined. -/
theorem C1_first_emitter_batched_abort (db : DBState)
    (schemaId fileId : Nat) (m : Mapping) (std : Nat) (df : Table)
    (colTypes : List (String × String))
    (varMap : List ((String × String) × Nat)) (firstColId : Nat)
    (vs : List (String × String)) :
    (run_transform db schemaId fileId (some m) (some std) df colTypes
        varMap firstColId).2 =
      Except.error (RunErr.unknownVars std vs) ↔
    firstEmitterMissing df colTypes varMap m.domains = some vs := by
  unfold run_transform
  dsimp only
  by_cases hd : m.domains.isEmpty
  · rw [if_pos hd]
    constructor
    · intro h
      cases h
    · intro h
      rw [List.isEmpty_iff.mp hd, firstEmitterMissing] at h
      cases h
  · rw [if_neg hd]
    have hspec := processDomains_spec schemaId fileId std df colTypes
      varMap m.domains { nextColId := firstColId } rfl
    cases hcase : processDomains schemaId fileId std df colTypes varMap
        { nextColId := firstColId } m.domains with
    | error err0 =>
      dsimp only
      constructor
      · intro h
        injection h with h2
        have hthis := (hspec.1 err0).mp hcase
        rw [h2] at hthis
        cases hf : firstEmitterMissing df colTypes varMap m.domains with
        | none =>
          rw [hf] at hthis
          simp at hthis
        | some vs1 =>
          rw [hf] at hthis
          simp only [Option.map_some', Option.some.injEq] at hthis
          injection hthis with h3 h4
          rw [h4]
      · intro h
        have hthis := (hspec.1 (RunErr.unknownVars std vs)).mpr
          (by rw [h]; rfl)
        rw [hcase] at hthis
        injection hthis with h2
        rw [h2]
    | ok st =>
      dsimp only
      constructor
      · intro h
        cases h
      · intro h
        have hthis := (hspec.1 (RunErr.unknownVars std vs)).mpr
          (by rw [h]; rfl)
        rw [hcase] at hthis
        cases hthis

/-- C1: the code contradicts the claim's batched reporting.  With two
emitters in the run, each referencing its own unresolved variable
(`AAA` in the first, `BBB` in the second, with an empty variable
dictionary), the run aborts at the first emitter and reports only
`DM.AAA` — not the unresolved names of all emitters of the whole run
(`DM.BBB` is also unresolved but never reported).  The `missing_vars`
accumulator is initialized before the domain loop and deduplicated with
`sorted(set(...))` — both pointless for a single emitter's misses — but
the `if missing_vars: raise` check sits inside the emitter loop, so the
cross-emitter batch the claim (and the accumulator's scope) describes
never happens. -/
theorem C1_evaluated_at_failing_input :
    (run_transform ⟨[], []⟩ 10 20
        (some ⟨[⟨some "DM", [],
          [⟨WhereArg.null,
            [⟨some "AAA", some "static", Val.str "1", none, []⟩]⟩,
           ⟨WhereArg.null,
            [⟨some "BBB", some "static", Val.str "1", none, []⟩]⟩]⟩]⟩)
        (some 7) ⟨[("C", [some "v"])], 1⟩ [] [] 1).2 =
      Except.error (RunErr.unknownVars 7 [("DM", "AAA")]) ∧
    emitterMissing ⟨[("C", [some "v"])], 1⟩ [] [] "DM" []
        ⟨WhereArg.null,
          [⟨some "BBB", some "static", Val.str "1", none, []⟩]⟩ =
      [("DM", "BBB")] ∧
    ("DM", "BBB") ∉ [(("DM" : String), ("AAA" : String))] := by
  refine ⟨rfl, rfl, ?_⟩
  decide

/-- Membership after a dictionary write: an element is an original one
or the written pair. -/
theorem updAssocN_mem (m : List (Nat × Nat)) (k v : Nat) (p : Nat × Nat)
    (hp : p ∈ updAssocN m k v) : p ∈ m ∨ p = (k, v) := by
  unfold updAssocN at hp
  by_cases h : m.any (fun q => q.1 = k)
  · rw [if_pos h] at hp
    obtain ⟨q, hq, hqe⟩ := List.mem_map.mp hp
    by_cases hqk : q.1 = k
    · rw [if_pos hqk] at hqe
      right
      rw [← hqe]
    · rw [if_neg hqk] at hqe
      left
      rw [← hqe]
      exact hq
  · rw [if_neg h] at hp
    rcases List.mem_append.mp hp with h1 | h2
    · left
      exact h1
    · right
      simpa using h2

/-- The resolution loop preserves the id invariant on the run state and
the bound on the name-to-header map. -/
theorem resolveVars_stok (schemaId fileId : Nat)
    (varMap : List ((String × String) × Nat)) (domainCode : String)
    (f : Nat) :
    ∀ (vars : List String) (st : RunSt) (colFor : List (String × Nat)),
      StOk f st → (∀ p ∈ colFor, f ≤ p.2) →
      StOk f (resolveVars schemaId fileId varMap domainCode vars
        (st, colFor)).1 ∧
      (∀ p ∈ (resolveVars schemaId fileId varMap domainCode vars
        (st, colFor)).2, f ≤ p.2) := by
  intro vars
  induction vars with
  | nil =>
    intro st colFor h hc
    exact ⟨h, hc⟩
  | cons v rest ih =>
    intro st colFor h hc
    simp only [resolveVars]
    cases hl : lookupNat varMap (domainCode, v) with
    | none =>
      dsimp only
      exact ih _ _ ⟨h.1, h.2.1, h.2.2⟩ hc
    | some vid =>
      dsimp only
      by_cases h0 : vid = 0
      · rw [if_pos h0]
        exact ih _ _ ⟨h.1, h.2.1, h.2.2⟩ hc
      · rw [if_neg h0]
        cases hf : (st.colIdByVarId.find? (fun q => q.1 = vid)).map
            (·.2) with
        | some colId =>
          dsimp only
          by_cases hc0 : colId = 0
          · rw [if_pos hc0]
            apply ih
            · refine ⟨Nat.le_succ_of_le h.1, ?_, ?_⟩
              · intro p hp
                rcases updAssocN_mem _ _ _ _ hp with hmem | hpe
                · exact h.2.1 p hmem
                · rw [hpe]
                  exact h.1
              · intro op hop
                rcases List.mem_append.mp hop with h1 | h2
                · exact h.2.2 op h1
                · rw [List.mem_singleton.mp h2]
                  exact h.1
            · intro p hp
              rcases List.mem_append.mp hp with h1 | h2
              · exact hc p h1
              · rw [List.mem_singleton.mp h2]
                exact h.1
          · rw [if_neg hc0]
            apply ih
            · exact h
            · intro p hp
              rcases List.mem_append.mp hp with h1 | h2
              · exact hc p h1
              · rw [List.mem_singleton.mp h2]
                obtain ⟨q, hq⟩ := Option.map_eq_some'.mp hf
                exact hq.2 ▸ h.2.1 q (List.mem_of_find?_eq_some hq.1)
        | none =>
          dsimp only
          apply ih
          · refine ⟨Nat.le_succ_of_le h.1, ?_, ?_⟩
            · intro p hp
              rcases updAssocN_mem _ _ _ _ hp with hmem | hpe
              · exact h.2.1 p hmem
              · rw [hpe]
                exact h.1
            · intro op hop
              rcases List.mem_append.mp hop with h1 | h2
              · exact h.2.2 op h1
              · rw [List.mem_singleton.mp h2]
                exact h.1
          · intro p hp
            rcases List.mem_append.mp hp with h1 | h2
            · exact hc p h1
            · rw [List.mem_singleton.mp h2]
              exact h.1

/-- A header already recorded for some name stays recorded through the
rest of the resolution loop. -/
theorem resolveVars_mono (schemaId fileId : Nat)
    (varMap : List ((String × String) × Nat)) (domainCode : String) :
    ∀ (vars : List String) (st : RunSt) (colFor : List (String × Nat))
      (pred : String × Nat → Bool), (colFor.find? pred).isSome →
      (((resolveVars schemaId fileId varMap domainCode vars
        (st, colFor)).2.find? pred).isSome) := by
  intro vars
  induction vars with
  | nil =>
    intro st colFor pred hp
    exact hp
  | cons v rest ih =>
    intro st colFor pred hp
    have happ : ∀ (x : String × Nat),
        (((colFor ++ [x]).find? pred).isSome) := by
      intro x
      rw [List.find?_append]
      obtain ⟨q, hq⟩ := Option.isSome_iff_exists.mp hp
      rw [hq]
      rfl
    simp only [resolveVars]
    cases hl : lookupNat varMap (domainCode, v) with
    | none =>
      dsimp only
      exact ih _ _ _ hp
    | some vid =>
      dsimp only
      by_cases h0 : vid = 0
      · rw [if_pos h0]
        exact ih _ _ _ hp
      · rw [if_neg h0]
        cases hf : (st.colIdByVarId.find? (fun q => q.1 = vid)).map
            (·.2) with
        | some colId =>
          dsimp only
          by_cases hc0 : colId = 0
          · rw [if_pos hc0]
            exact ih _ _ _ (happ _)
          · rw [if_neg hc0]
            exact ih _ _ _ (happ _)
        | none =>
          dsimp only
          exact ih _ _ _ (happ _)

/-- Every variable the dictionary resolves ends up with a recorded
header id. -/
theorem resolveVars_found (schemaId fileId : Nat)
    (varMap : List ((String × String) × Nat)) (domainCode : String) :
    ∀ (vars : List String) (st : RunSt) (colFor : List (String × Nat))
      (v : String), v ∈ vars → missFn varMap domainCode v = none →
      (((resolveVars schemaId fileId varMap domainCode vars
        (st, colFor)).2.find? (fun p => p.1 = v)).isSome) := by
  intro vars
  induction vars with
  | nil =>
    intro st colFor v hv
    exact absurd hv (List.not_mem_nil v)
  | cons w rest ih =>
    intro st colFor v hv hmf
    have hselffind : ∀ (id0 : Nat),
        (((colFor ++ [(v, id0)]).find? (fun p => p.1 = v)).isSome) := by
      intro id0
      rw [List.find?_append]
      cases hcf : colFor.find? (fun p => p.1 = v) with
      | some q => rfl
      | none => simp [List.find?]
    rcases List.mem_cons.mp hv with hvw | hv2
    · subst hvw
      unfold missFn at hmf
      simp only [resolveVars]
      cases hl : lookupNat varMap (domainCode, v) with
      | none =>
        rw [hl] at hmf
        simp at hmf
      | some vid =>
        rw [hl] at hmf
        dsimp only at hmf
        by_cases h0 : vid = 0
        · rw [if_pos h0] at hmf
          cases hmf
        · dsimp only
          rw [if_neg h0]
          cases hf : (st.colIdByVarId.find? (fun q => q.1 = vid)).map
              (·.2) with
          | some colId =>
            dsimp only
            by_cases hc0 : colId = 0
            · rw [if_pos hc0]
              exact resolveVars_mono schemaId fileId varMap domainCode
                rest _ _ _ (hselffind _)
            · rw [if_neg hc0]
              exact resolveVars_mono schemaId fileId varMap domainCode
                rest _ _ _ (hselffind _)
          | none =>
            dsimp only
            exact resolveVars_mono schemaId fileId varMap domainCode
              rest _ _ _ (hselffind _)
    · simp only [resolveVars]
      cases hl : lookupNat varMap (domainCode, w) with
      | none =>
        dsimp only
        exact ih _ _ v hv2 hmf
      | some vid =>
        dsimp only
        by_cases h0 : vid = 0
        · rw [if_pos h0]
          exact ih _ _ v hv2 hmf
        · rw [if_neg h0]
          cases hf : (st.colIdByVarId.find? (fun q => q.1 = vid)).map
              (·.2) with
          | some colId =>
            dsimp only
            by_cases hc0 : colId = 0
            · rw [if_pos hc0]
              exact ih _ _ v hv2 hmf
            · rw [if_neg hc0]
              exact ih _ _ v hv2 hmf
          | none =>
            dsimp only
            exact ih _ _ v hv2 hmf

/-- Every buffered cell insert references a recorded header id, hence
one at or above the seed. -/
theorem cellOps_insertGE (f : Nat) (outVars : List String)
    (vbt : List (String × List Val)) (colFor : List (String × Nat))
    (startIdx nsub : Nat)
    (hfind : ∀ v ∈ outVars, ((colFor.find? (fun p => p.1 = v)).isSome))
    (hbound : ∀ p ∈ colFor, f ≤ p.2) :
    ∀ op ∈ cellOps outVars vbt colFor startIdx nsub,
      opInsertGE f op := by
  intro op hop
  unfold cellOps at hop
  simp only [List.mem_flatMap, List.mem_map, List.mem_range] at hop
  obtain ⟨i, hi, v, hv, hope⟩ := hop
  obtain ⟨q, hq⟩ := Option.isSome_iff_exists.mp (hfind v hv)
  rw [← hope]
  show f ≤ _
  rw [hq]
  simp only [Option.map_some', Option.getD_some]
  exact hbound q (List.mem_of_find?_eq_some hq)

/-- One emitter iteration preserves the id invariant. -/
theorem processEmitter_stok (schemaId fileId standardId : Nat)
    (df : Table) (colTypes : List (String × String))
    (varMap : List ((String × String) × Nat)) (domainCode : String)
    (commonAssign : List Assign) (acc : RunSt × Nat × Nat) (e : Emitter)
    (f : Nat) (h : StOk f acc.1) (hmiss : acc.1.missingVars = []) :
    ∀ acc2, processEmitter schemaId fileId standardId df colTypes varMap
      domainCode commonAssign acc e = Except.ok acc2 →
      StOk f acc2.1 := by
  intro acc2 hok
  unfold processEmitter at hok
  dsimp only at hok
  by_cases hm : ((if whereTruthy e.whereArg then
      eval_where df e.whereArg colTypes
    else List.replicate df.nrows true).count true = 0)
  · rw [if_pos hm] at hok
    cases hok
    exact h
  · rw [if_neg hm] at hok
    by_cases hov : (((valuesByTo ((df.subset (if whereTruthy e.whereArg
        then eval_where df e.whereArg colTypes
        else List.replicate df.nrows true)))
        (merge_assigns_no_override commonAssign e.assign)).map
        (·.1)).isEmpty)
    · rw [if_pos hov] at hok
      cases hok
      exact h
    · rw [if_neg hov] at hok
      have hrs := resolveVars_stok schemaId fileId varMap domainCode f
        ((valuesByTo ((df.subset (if whereTruthy e.whereArg
          then eval_where df e.whereArg colTypes
          else List.replicate df.nrows true)))
          (merge_assigns_no_override commonAssign e.assign)).map (·.1))
        acc.1 [] h (by simp)
      by_cases hne : ((resolveVars schemaId fileId varMap domainCode
          ((valuesByTo ((df.subset (if whereTruthy e.whereArg
            then eval_where df e.whereArg colTypes
            else List.replicate df.nrows true)))
            (merge_assigns_no_override commonAssign e.assign)).map
            (·.1)) (acc.1, [])).1.missingVars ≠ [])
      · rw [if_pos hne] at hok
        cases hok
      · rw [if_neg hne] at hok
        push_neg at hne
        have hrm := resolveVars_missing schemaId fileId varMap domainCode
          ((valuesByTo ((df.subset (if whereTruthy e.whereArg
            then eval_where df e.whereArg colTypes
            else List.replicate df.nrows true)))
            (merge_assigns_no_override commonAssign e.assign)).map
            (·.1)) acc.1 []
        rw [hne, hmiss, List.nil_append] at hrm
        have hmf : ∀ v ∈ ((valuesByTo ((df.subset
            (if whereTruthy e.whereArg
              then eval_where df e.whereArg colTypes
              else List.replicate df.nrows true)))
            (merge_assigns_no_override commonAssign e.assign)).map
            (·.1)), missFn varMap domainCode v = none :=
          List.filterMap_eq_nil.mp hrm.symm
        cases hok
        refine ⟨hrs.1.1, hrs.1.2.1, ?_⟩
        intro op hop
        rcases List.mem_append.mp hop with h1 | h2
        · exact hrs.1.2.2 op h1
        · refine cellOps_insertGE f _ _ _ _ _ ?_ hrs.2 op h2
          intro v hv
          exact resolveVars_found schemaId fileId varMap domainCode _
            acc.1 [] v hv (hmf v hv)

/-- The emitter loop preserves the id invariant and the empty miss
list. -/
theorem processEmitters_stok (schemaId fileId standardId : Nat)
    (df : Table) (colTypes : List (String × String))
    (varMap : List ((String × String) × Nat)) (domainCode : String)
    (commonAssign : List Assign) (f : Nat) :
    ∀ (es : List Emitter) (acc : RunSt × Nat × Nat), StOk f acc.1 →
      acc.1.missingVars = [] →
      ∀ acc2, processEmitters schemaId fileId standardId df colTypes
        varMap domainCode commonAssign acc es = Except.ok acc2 →
        StOk f acc2.1 := by
  intro es
  induction es with
  | nil =>
    intro acc h hmiss acc2 hok
    rw [processEmitters] at hok
    cases hok
    exact h
  | cons e es ih =>
    intro acc h hmiss acc2 hok
    rw [processEmitters] at hok
    cases hcase : processEmitter schemaId fileId standardId df colTypes
        varMap domainCode commonAssign acc e with
    | error err0 =>
      rw [hcase] at hok
      cases hok
    | ok acc1 =>
      rw [hcase] at hok
      exact ih acc1
        (processEmitter_stok schemaId fileId standardId df colTypes
          varMap domainCode commonAssign acc e f h hmiss acc1 hcase)
        ((processEmitter_spec schemaId fileId standardId df colTypes
          varMap domainCode commonAssign acc e hmiss).2 acc1 hcase)
        acc2 hok

/-- The domain loop preserves the id invariant. -/
theorem processDomains_stok (schemaId fileId standardId : Nat)
    (df : Table) (colTypes : List (String × String))
    (varMap : List ((String × String) × Nat)) (f : Nat) :
    ∀ (ds : List DomainCfg) (st : RunSt), StOk f st →
      st.missingVars = [] →
      ∀ st2, processDomains schemaId fileId standardId df colTypes
        varMap st ds = Except.ok st2 → StOk f st2 := by
  intro ds
  induction ds with
  | nil =>
    intro st h hmiss st2 hok
    rw [processDomains] at hok
    cases hok
    exact h
  | cons d ds ih =>
    intro st h hmiss st2 hok
    rw [processDomains] at hok
    cases hcase : processDomain schemaId fileId standardId df colTypes
        varMap st d with
    | error err0 =>
      rw [hcase] at hok
      cases hok
    | ok st1 =>
      rw [hcase] at hok
      have hst1 : StOk f st1 := by
        unfold processDomain at hcase
        dsimp only at hcase
        by_cases hc : pyUpper ((d.domain).getD "") = ""
        · rw [if_pos hc] at hcase
          cases hcase
          exact h
        · rw [if_neg hc] at hcase
          cases hpe : processEmitters schemaId fileId standardId df
              colTypes varMap (pyUpper ((d.domain).getD ""))
              d.commonAssign (st, 0, 0) d.emitters with
          | error err0 =>
            rw [hpe] at hcase
            cases hcase
          | ok acc1 =>
            rw [hpe] at hcase
            obtain ⟨st0, dr, dc⟩ := acc1
            cases hcase
            have := processEmitters_stok schemaId fileId standardId df
              colTypes varMap (pyUpper ((d.domain).getD ""))
              d.commonAssign f d.emitters (st, 0, 0) h hmiss
              (st0, dr, dc) hpe
            exact ⟨this.1, this.2.1, this.2.2⟩
      have hm1 : st1.missingVars = [] :=
        (processDomain_spec schemaId fileId standardId df colTypes
          varMap st d hmiss).2 st1 hcase
      exact ih st1 hst1 hm1 st2 hok

/-- Committing a list of insert operations appends new header and cell
rows whose ids are at or above the seed. -/
theorem applyDbOps_inserts (f : Nat) :
    ∀ (ops : List DbOp) (db2 : DBState),
      (∀ op ∈ ops, opInsertGE f op) →
    ∃ newCols newData,
      (applyDbOps db2 ops).sdtmColumns = db2.sdtmColumns ++ newCols ∧
      (applyDbOps db2 ops).sdtmData = db2.sdtmData ++ newData ∧
      (∀ c ∈ newCols, f ≤ c.id) ∧
      (∀ d ∈ newData, f ≤ d.sdtm_column_id) := by
  intro ops
  induction ops with
  | nil =>
    intro db2 h
    exact ⟨[], [], by simp [applyDbOps], by simp [applyDbOps],
      by simp, by simp⟩
  | cons op ops ih =>
    intro db2 h
    have hstep : applyDbOps db2 (op :: ops) =
        applyDbOps (applyDbOp db2 op) ops := rfl
    cases op with
    | delCols a b =>
      exact absurd (h _ (List.mem_cons_self _ _)) (by simp [opInsertGE])
    | insCol c =>
      have hc : f ≤ c.id := h _ (List.mem_cons_self _ _)
      obtain ⟨nc, nd, h1, h2, h3, h4⟩ :=
        ih (applyDbOp db2 (DbOp.insCol c))
          (fun op hop => h op (List.mem_cons_of_mem _ hop))
      refine ⟨c :: nc, nd, ?_, ?_, ?_, h4⟩
      · rw [hstep, h1]
        simp [applyDbOp]
      · rw [hstep, h2]
        simp [applyDbOp]
      · intro x hx
        rcases List.mem_cons.mp hx with rfl | hx2
        · exact hc
        · exact h3 x hx2
    | insData d =>
      have hd : f ≤ d.sdtm_column_id := h _ (List.mem_cons_self _ _)
      obtain ⟨nc, nd, h1, h2, h3, h4⟩ :=
        ih (applyDbOp db2 (DbOp.insData d))
          (fun op hop => h op (List.mem_cons_of_mem _ hop))
      refine ⟨nc, d :: nd, ?_, ?_, h3, ?_⟩
      · rw [hstep, h1]
        simp [applyDbOp]
      · rw [hstep, h2]
        simp [applyDbOp]
      · intro x hx
        rcases List.mem_cons.mp hx with rfl | hx2
        · exact hd
        · exact h4 x hx2

/-- C2: a transform run for a (mapping, dataset) pair is atomic.  Any
failure leaves the database state exactly as it was (full rollback).  On
success, with the header-id sequence ahead of every existing id, the
prior output headers for the pair are all gone, headers outside the pair
survive, and every prior cell hanging off a prior scoped header is gone
— the deletion and all new inserts commit together. -/
theorem C2_transaction_atomicity (db : DBState) (schemaId fileId : Nat)
    (mapping? : Option Mapping) (standardId? : Option Nat) (df : Table)
    (colTypes : List (String × String))
    (varMap : List ((String × String) × Nat)) (firstColId : Nat)
    (hfresh : ∀ c ∈ db.sdtmColumns, c.id < firstColId) :
    (∀ err, (run_transform db schemaId fileId mapping? standardId? df
        colTypes varMap firstColId).2 = Except.error err →
      (run_transform db schemaId fileId mapping? standardId? df colTypes
        varMap firstColId).1 = db) ∧
    (∀ res, (run_transform db schemaId fileId mapping? standardId? df
        colTypes varMap firstColId).2 = Except.ok res →
      (∀ c ∈ db.sdtmColumns, colScoped schemaId fileId c = true →
        c ∉ (run_transform db schemaId fileId mapping? standardId? df
          colTypes varMap firstColId).1.sdtmColumns) ∧
      (∀ c ∈ db.sdtmColumns, colScoped schemaId fileId c = false →
        c ∈ (run_transform db schemaId fileId mapping? standardId? df
          colTypes varMap firstColId).1.sdtmColumns) ∧
      (∀ d ∈ db.sdtmData, (∃ c ∈ db.sdtmColumns,
          colScoped schemaId fileId c = true ∧
          c.id = d.sdtm_column_id) →
        d ∉ (run_transform db schemaId fileId mapping? standardId? df
          colTypes varMap firstColId).1.sdtmData)) := by
  cases mapping? with
  | none => exact ⟨fun err h => rfl, fun res h => by cases h⟩
  | some m =>
    cases standardId? with
    | none => exact ⟨fun err h => rfl, fun res h => by cases h⟩
    | some std =>
      unfold run_transform
      dsimp only
      by_cases hdm : m.domains.isEmpty
      · rw [if_pos hdm]
        constructor
        · intro err h
          cases h
        intro res h
        refine ⟨?_, ?_, ?_⟩
        · intro c hc hsc hmem
          simp only [applyDbOp, List.mem_filter] at hmem
          rw [hsc] at hmem
          exact absurd hmem.2 (by simp)
        · intro c hc hsc
          simp only [applyDbOp, List.mem_filter]
          exact ⟨hc, by rw [hsc]; rfl⟩
        · intro d hd0 hex hmem
          obtain ⟨c, hc, hsc, hid⟩ := hex
          simp only [applyDbOp, List.mem_filter] at hmem
          have hany : (db.sdtmColumns.filter
              (colScoped schemaId fileId)).any
              (fun c2 => c2.id = d.sdtm_column_id) = true := by
            rw [List.any_eq_true]
            exact ⟨c, List.mem_filter.mpr ⟨hc, hsc⟩, by simp [hid]⟩
          rw [hany] at hmem
          exact absurd hmem.2 (by simp)
      · rw [if_neg hdm]
        cases hcase : processDomains schemaId fileId std df colTypes
            varMap { nextColId := firstColId } m.domains with
        | error err0 =>
          dsimp only
          exact ⟨fun err h => rfl, fun res h => by cases h⟩
        | ok st =>
          dsimp only
          have hstok : StOk firstColId st :=
            processDomains_stok schemaId fileId std df colTypes varMap
              firstColId m.domains { nextColId := firstColId }
              ⟨Nat.le_refl _, by simp, by simp⟩ rfl st hcase
          obtain ⟨nc, nd, h1, h2, h3, h4⟩ :=
            applyDbOps_inserts firstColId st.ops
              (applyDbOp db (DbOp.delCols schemaId fileId)) hstok.2.2
          have hstep : applyDbOps db
              (DbOp.delCols schemaId fileId :: st.ops) =
              applyDbOps (applyDbOp db (DbOp.delCols schemaId fileId))
                st.ops := rfl
          constructor
          · intro err h
            cases h
          intro res h
          refine ⟨?_, ?_, ?_⟩
          · intro c hc hsc hmem
            rw [hstep, h1] at hmem
            rcases List.mem_append.mp hmem with h5 | h6
            · simp only [applyDbOp, List.mem_filter] at h5
              rw [hsc] at h5
              exact absurd h5.2 (by simp)
            · have hb1 := h3 c h6
              have hb2 := hfresh c hc
              omega
          · intro c hc hsc
            rw [hstep, h1]
            apply List.mem_append_left
            simp only [applyDbOp, List.mem_filter]
            exact ⟨hc, by rw [hsc]; rfl⟩
          · intro d hd0 hex hmem
            obtain ⟨c, hc, hsc, hid⟩ := hex
            rw [hstep, h2] at hmem
            rcases List.mem_append.mp hmem with h5 | h6
            · simp only [applyDbOp, List.mem_filter] at h5
              have hany : (db.sdtmColumns.filter
                  (colScoped schemaId fileId)).any
                  (fun c2 => c2.id = d.sdtm_column_id) = true := by
                rw [List.any_eq_true]
                exact ⟨c, List.mem_filter.mpr ⟨hc, hsc⟩, by simp [hid]⟩
              rw [hany] at h5
              exact absurd h5.2 (by simp)
            · have := h4 d h6
              have := hfresh c hc
              omega

/-- Witness for C2: a run over a database holding one prior scoped
header (id 1) with one cell and one unrelated header (id 2); after the
successful rebuild the prior scoped header and its cell are gone and
the unrelated header survives. -/
theorem C2_transaction_atomicity_witness :
    (⟨1, 10, 20, 5⟩ : SDTMColumnRow) ∉
      (run_transform ⟨[⟨1, 10, 20, 5⟩, ⟨2, 11, 20, 6⟩],
          [⟨1, 0, some "old"⟩]⟩ 10 20
        (some ⟨[⟨some "DM", [],
          [⟨WhereArg.null,
            [⟨some "AAA", some "static", Val.str "1", none, []⟩]⟩]⟩]⟩)
        (some 7) ⟨[("C", [some "v"])], 1⟩ [] [(("DM", "AAA"), 5)]
        3).1.sdtmColumns ∧
    (⟨2, 11, 20, 6⟩ : SDTMColumnRow) ∈
      (run_transform ⟨[⟨1, 10, 20, 5⟩, ⟨2, 11, 20, 6⟩],
          [⟨1, 0, some "old"⟩]⟩ 10 20
        (some ⟨[⟨some "DM", [],
          [⟨WhereArg.null,
            [⟨some "AAA", some "static", Val.str "1", none, []⟩]⟩]⟩]⟩)
        (some 7) ⟨[("C", [some "v"])], 1⟩ [] [(("DM", "AAA"), 5)]
        3).1.sdtmColumns ∧
    (⟨1, 0, some "old"⟩ : SDTMDataRow) ∉
      (run_transform ⟨[⟨1, 10, 20, 5⟩, ⟨2, 11, 20, 6⟩],
          [⟨1, 0, some "old"⟩]⟩ 10 20
        (some ⟨[⟨some "DM", [],
          [⟨WhereArg.null,
            [⟨some "AAA", some "static", Val.str "1", none, []⟩]⟩]⟩]⟩)
        (some 7) ⟨[("C", [some "v"])], 1⟩ [] [(("DM", "AAA"), 5)]
        3).1.sdtmData := by
  have h := C2_transaction_atomicity
    ⟨[⟨1, 10, 20, 5⟩, ⟨2, 11, 20, 6⟩], [⟨1, 0, some "old"⟩]⟩ 10 20
    (some ⟨[⟨some "DM", [],
      [⟨WhereArg.null,
        [⟨some "AAA", some "static", Val.str "1", none, []⟩]⟩]⟩]⟩)
    (some 7) ⟨[("C", [some "v"])], 1⟩ [] [(("DM", "AAA"), 5)] 3
    (by decide)
  have h2 := h.2 ([("DM", 1, 1)], 1, 1) rfl
  refine ⟨h2.1 ⟨1, 10, 20, 5⟩ (by decide) (by decide),
    h2.2.1 ⟨2, 11, 20, 6⟩ (by decide) (by decide),
    h2.2.2 ⟨1, 0, some "old"⟩ (by decide)
      ⟨⟨1, 10, 20, 5⟩, by decide, by decide, rfl⟩⟩

end SdtmBackend
